import Mathlib

/-!
# Verification of the Hiring_Agent in-memory store and webhook pipeline

This development shallowly embeds the core of the `backend/app` package:
the dedup matcher (`services/dedupe.py`), the workflow rules
(`services/workflow.py`), the scoring engine (`services/scoring.py`), the
channel-event processor (`services/channel_events.py`), the transactional
store (`store.py`) and the webhook HTTP handler (`main.py`).

Modelling conventions:
* Python `datetime` values are modelled as rationals (`ℚ`); every store
  method that calls `utc_now()` receives the current time as an explicit
  `now` argument (a single call is modelled with a single timestamp).
* `uuid4`-generated ids (`new_id`) are modelled as an injective function
  `mkId` from a per-store counter `nextId` into `String`; uniqueness of
  freshly drawn uuids becomes freshness of the counter.
* Python `dict`s are modelled as insertion-ordered association lists
  (`AList`), matching CPython's ordered-dict semantics on which the
  store's scan order relies; `dict.values()` is `AList.values`.
* `difflib.SequenceMatcher(...).ratio()` is treated as an abstract
  similarity parameter `sim : String → String → ℚ`; every theorem that
  involves the dedup matcher is proved for all values of `sim`.
* `math` trigonometry in `haversine_km` is likewise treated as an
  abstract distance parameter `hav`; the claims checked here do not
  depend on its value.
* Exceptions become `Except`; a raised store/channel error carries the
  store state at raise time, so "no state change on failure" is a
  provable statement rather than a modelling artifact.
* The SQLite persistence adapter is not attached (`persistence=None` in
  the source), so `_persist_state` and friends are no-ops.
-/

namespace HiringAgent

/-- models.py `Language` enum. -/
inductive Language where
  | kn | en | hi | ta | te
deriving DecidableEq, Repr

/-- `Language(value)` constructor: `some` on the five known codes, else failure
(`_parse_languages` skips unknown values). -/
def Language.ofCode : String → Option Language
  | "kn" => some .kn
  | "en" => some .en
  | "hi" => some .hi
  | "ta" => some .ta
  | "te" => some .te
  | _ => none

/-- models.py `SourceChannel` enum. -/
inductive SourceChannel where
  | whatsapp | walk_in | referral | agent | web | call
deriving DecidableEq, Repr

/-- models.py `StageStatus` enum. -/
inductive StageStatus where
  | new | screened | interviewed | shortlisted | offered | joined | dropped
deriving DecidableEq, Repr

/-- `StageStatus.value`: the string carried by the str-enum. -/
def StageStatus.value : StageStatus → String
  | .new => "new"
  | .screened => "screened"
  | .interviewed => "interviewed"
  | .shortlisted => "shortlisted"
  | .offered => "offered"
  | .joined => "joined"
  | .dropped => "dropped"

/-- models.py `WebhookProcessingStatus` enum. -/
inductive WebhookProcessingStatus where
  | received | processed | retry_pending | failed
deriving DecidableEq, Repr

/-- `WebhookProcessingStatus.value`. -/
def WebhookProcessingStatus.value : WebhookProcessingStatus → String
  | .received => "received"
  | .processed => "processed"
  | .retry_pending => "retry_pending"
  | .failed => "failed"

/-- models.py `WebsiteEventType` enum. -/
inductive WebsiteEventType where
  | view | cta_click | form_start | form_submit | wa_click
deriving DecidableEq, Repr

/-- models.py `WebsiteLeadQueueMode` enum. -/
inductive WebsiteLeadQueueMode where
  | all | due_soon | overdue | hot_new
deriving DecidableEq, Repr

/-- models.py `CampaignEventType` enum. -/
inductive CampaignEventType where
  | leads | screened | trials | offers | joined
deriving DecidableEq, Repr

/-- `CampaignEventType.value`. -/
def CampaignEventType.value : CampaignEventType → String
  | .leads => "leads"
  | .screened => "screened"
  | .trials => "trials"
  | .offers => "offers"
  | .joined => "joined"

/-- models.py `Coordinates` (lat ∈ [-90,90], lon ∈ [-180,180] enforced at
validation time). -/
structure Coordinates where
  lat : ℚ
  lon : ℚ
deriving DecidableEq, Repr

/-- Entity ids (`new_id` produces strings such as `app_3f2e...`). -/
abbrev Id := String

/-- Model of `new_id`/`uuid4`: an injection from the store's id counter into
strings.  The `prefix` argument of `new_id` is dropped; only distinctness of
generated ids matters. -/
def mkId (n : Nat) : Id := String.mk (List.replicate (n + 1) 'c')

/-! ## Association lists: insertion-ordered Python dicts -/

/-- A Python `dict`: an insertion-ordered association list. -/
abbrev AList (κ α : Type) : Type := List (κ × α)

/-- `d.get(k)` / `d[k]` lookup (first binding of the key). -/
def AList.get? {κ α : Type} [DecidableEq κ] : AList κ α → κ → Option α
  | [], _ => none
  | p :: m, k => if p.1 = k then some p.2 else AList.get? m k

/-- `k in d`. -/
def AList.contains {κ α : Type} [DecidableEq κ] (m : AList κ α) (k : κ) : Bool :=
  (m.get? k).isSome

/-- `d[k] = v`: replaces the binding in place when the key exists (keeping
its position, as CPython does), else appends at the end. -/
def AList.set {κ α : Type} [DecidableEq κ] : AList κ α → κ → α → AList κ α
  | [], k, v => [(k, v)]
  | p :: m, k, v => if p.1 = k then (k, v) :: m else p :: AList.set m k v

/-- `d.values()` in insertion order. -/
def AList.values {κ α : Type} (m : AList κ α) : List α := m.map Prod.snd

/-- `d.keys()` in insertion order. -/
def AList.keys {κ α : Type} (m : AList κ α) : List κ := m.map Prod.fst

/-! ## Entity records (models.py) -/

/-- models.py `EmployerRecord`. -/
structure EmployerRecord where
  id : Id
  name : String
  contact_phone : String
  created_at_utc : ℚ
deriving DecidableEq, Repr

/-- models.py `JobRecord`. -/
structure JobRecord where
  id : Id
  employer_id : Id
  role : String
  required_therapies : List String
  shift_start : String
  shift_end : String
  pay_min : Int
  pay_max : Int
  location_name : String
  location : Coordinates
  languages : List Language
  sla_deadline_utc : ℚ
  created_at_utc : ℚ
deriving DecidableEq, Repr

/-- models.py `CandidateRecord`. -/
structure CandidateRecord where
  id : Id
  name : String
  phone : String
  source_channel : SourceChannel
  languages : List Language
  therapy_experience : List String
  experience_years : ℚ
  certifications : List String
  expected_pay : Option Int
  current_location : Option Coordinates
  preferred_shift_start : Option String
  preferred_shift_end : Option String
  referred_by : Option String
  last_employer : Option String
  created_at_utc : ℚ
deriving DecidableEq, Repr

/-- models.py `ApplicationRecord`. -/
structure ApplicationRecord where
  id : Id
  job_id : Id
  candidate_id : Id
  stage : StageStatus := .new
  screening_score : Option ℚ := none
  created_at_utc : ℚ
  updated_at_utc : ℚ
deriving DecidableEq, Repr

/-- models.py `ScreeningRecord`. -/
structure ScreeningRecord where
  id : Id
  job_id : Id
  candidate_id : Id
  application_id : Id
  hard_filter_pass : Bool
  overall_fit_score : ℚ
  explanation : List String
  created_at_utc : ℚ
deriving DecidableEq, Repr

/-- models.py `InterviewRecord`. -/
structure InterviewRecord where
  id : Id
  application_id : Id
  mode : String
  scheduled_at_utc : ℚ
  created_at_utc : ℚ
deriving DecidableEq, Repr

/-- models.py `OfferRecord` (`joining_date` kept as a rational day stamp). -/
structure OfferRecord where
  id : Id
  application_id : Id
  monthly_pay : Int
  joining_date : ℚ
  status : String
  created_at_utc : ℚ
deriving DecidableEq, Repr

/-- models.py `AuditEventRecord`. -/
structure AuditEventRecord where
  id : Id
  application_id : Id
  from_stage : Option StageStatus
  to_stage : StageStatus
  reason : String
  created_at_utc : ℚ
deriving DecidableEq, Repr

/-- models.py `WebhookDeliveryRecord`. -/
structure WebhookDeliveryRecord where
  id : Id
  key : String
  channel : String
  event_id : String
  status : WebhookProcessingStatus
  attempts : Nat
  last_error : Option String
  next_retry_utc : Option ℚ
  created_at_utc : ℚ
  updated_at_utc : ℚ
deriving DecidableEq, Repr

/-- models.py `FirstTenCampaignRecord`. -/
structure FirstTenCampaignRecord where
  id : Id
  employer_name : String
  city : String
  neighborhood_focus : List String
  whatsapp_business_number : String
  target_joiners : Nat
  fresher_preferred : Bool
  first_contact_sla_minutes : Option Nat := none
  counts : AList String Int
  created_at_utc : ℚ
  updated_at_utc : ℚ
deriving DecidableEq, Repr

/-- models.py `ManualLeadRecord`. -/
structure ManualLeadRecord where
  id : Id
  source_channel : SourceChannel
  name : String
  phone : String
  languages : List Language
  therapy_experience : List String
  experience_years : ℚ
  certifications : List String
  expected_pay : Option Int
  current_location : Option Coordinates
  preferred_shift_start : Option String
  preferred_shift_end : Option String
  referred_by : Option String
  last_employer : Option String
  job_id : Option Id
  neighborhood : Option String
  notes : Option String
  created_by : Option String
  candidate_id : Id
  deduplicated : Bool
  application_id : Option Id
  created_at_utc : ℚ
deriving DecidableEq, Repr

/-- models.py `WebsiteLeadRecord`. -/
structure WebsiteLeadRecord where
  id : Id
  candidate_id : Id
  deduplicated : Bool
  application_id : Option Id
  name : String
  phone : String
  neighborhood : Option String
  campaign_id : Option Id
  job_id : Option Id
  utm_source : Option String
  utm_medium : Option String
  utm_campaign : Option String
  utm_term : Option String
  utm_content : Option String
  landing_path : Option String
  referrer : Option String
  session_id : Option String
  wa_link_generated : String
  wa_click_count : Nat
  first_contact_sla_minutes_effective : Nat
  first_contact_due_utc : ℚ
  first_contact_at_utc : Option ℚ
  sla_breached : Bool
  created_at_utc : ℚ
  updated_at_utc : ℚ
deriving DecidableEq, Repr

/-- models.py `WebsiteEventRecord` (the free-form `metadata` dict is dropped:
nothing reads it). -/
structure WebsiteEventRecord where
  id : Id
  event_type : WebsiteEventType
  lead_id : Option Id
  campaign_id : Option Id
  session_id : Option String
  utm_source : Option String
  utm_medium : Option String
  utm_campaign : Option String
  landing_path : Option String
  referrer : Option String
  created_at_utc : ℚ
deriving DecidableEq, Repr

/-! ## Python string primitives

`str.strip`, `str.lower` and whitespace splitting are modelled on the
character list of the string (structurally recursive, so that concrete
instances compute inside the kernel). -/

/-- Python `str.strip()`: drop leading and trailing whitespace. -/
def pyStrip (s : String) : String :=
  String.mk ((((s.data.dropWhile Char.isWhitespace).reverse).dropWhile
    Char.isWhitespace).reverse)

/-- Python `str.lower()` (ASCII case folding). -/
def pyLower (s : String) : String :=
  String.mk (s.data.map Char.toLower)

/-- Collapse every internal whitespace run to a single blank: on a stripped
string this is Python's `" ".join(s.split())`. -/
def squeezeWs : List Char → List Char
  | [] => []
  | c :: rest =>
      if c.isWhitespace then
        match squeezeWs rest with
        | [] => []
        | l => if l.head? = some ' ' then l else ' ' :: l
      else c :: squeezeWs rest

/-! ## Dedup matcher (services/dedupe.py) -/

/-- dedupe.py `normalize`: strip, lowercase, collapse internal whitespace
(`" ".join(value.strip().lower().split())`).  The Python guard
`if not value: return ""` is subsumed: an empty or missing string
normalizes to `""` through the main path as well. -/
def normalize (value : Option String) : String :=
  match value with
  | none => ""
  | some v => String.mk (squeezeWs (pyLower (pyStrip v)).data)

/-- dedupe.py `is_probable_duplicate`.  `sim` stands for
`SequenceMatcher(a=..., b=...).ratio()`. -/
def is_probable_duplicate (sim : String → String → ℚ) (existing : CandidateRecord)
    (phone : String) (name : String) (last_employer : Option String) : Bool :=
  if normalize (some existing.phone) = normalize (some phone) then true
  else
    let existing_name := normalize (some existing.name)
    let incoming_name := normalize (some name)
    if existing_name = "" ∨ incoming_name = "" then false
    else if sim existing_name incoming_name < 0.9 then false
    else if normalize existing.last_employer ≠ "" ∧ normalize last_employer ≠ "" then
      decide (normalize existing.last_employer = normalize last_employer)
    else true

/-! ## Workflow rules (services/workflow.py) -/

/-- workflow.py `ALLOWED_TRANSITIONS`. -/
def ALLOWED_TRANSITIONS : StageStatus → List StageStatus
  | .new => [.screened, .dropped]
  | .screened => [.interviewed, .shortlisted, .dropped]
  | .interviewed => [.shortlisted, .dropped]
  | .shortlisted => [.offered, .dropped]
  | .offered => [.joined, .dropped]
  | .joined => []
  | .dropped => []

/-! ## Scoring engine (services/scoring.py) -/

/-- Python `round(x, 3)`: round half to even at three decimal places. -/
def round3 (q : ℚ) : ℚ :=
  let scaled := q * 1000
  let f : ℤ := Int.fdiv scaled.num scaled.den
  let frac := scaled - f
  let n : ℤ :=
    if frac < 1 / 2 then f
    else if frac > 1 / 2 then f + 1
    else if f % 2 = 0 then f else f + 1
  (n : ℚ) / 1000

/-- scoring.py `compute_commute_score`.  `hav` stands for `haversine_km`,
kept abstract (real trigonometry). -/
def compute_commute_score (hav : Coordinates → Coordinates → ℚ)
    (candidate : CandidateRecord) (job : JobRecord) : ℚ :=
  match candidate.current_location with
  | none => 0.5
  | some loc =>
      let distance := hav loc job.location
      if distance ≤ 5 then 1.0
      else if distance ≤ 10 then 0.8
      else if distance ≤ 20 then 0.5
      else if distance ≤ 30 then 0.2
      else 0.0

/-- The therapy-overlap score of scoring.py `screening_score`:
`len(required ∩ candidate) / len(required)`, `1.0` when no therapies are
required (Python set truthiness). -/
def therapy_score_of (candidate : CandidateRecord) (job : JobRecord) : ℚ :=
  let required := (job.required_therapies.map (fun v => pyStrip (pyLower v))).toFinset
  let cand := (candidate.therapy_experience.map (fun v => pyStrip (pyLower v))).toFinset
  if required = ∅ then 1.0 else ((required ∩ cand).card : ℚ) / required.card

/-- The language-overlap score of scoring.py `screening_score`. -/
def language_score_of (candidate : CandidateRecord) (job : JobRecord) : ℚ :=
  let required := job.languages.toFinset
  let cand := candidate.languages.toFinset
  if required = ∅ then 1.0 else ((required ∩ cand).card : ℚ) / required.card

/-- `bool(candidate.certifications) or candidate.experience_years >= 2`. -/
def cert_or_exp_ok (candidate : CandidateRecord) : Bool :=
  candidate.certifications ≠ [] ∨ candidate.experience_years ≥ 2

/-- scoring.py `screening_score`: returns
(`hard_pass`, `overall`, `explanation`).  The explanation strings use a
simplified rendering of Python's `f"...={value:.2f}"` formatting. -/
def screening_score (hav : Coordinates → Coordinates → ℚ)
    (candidate : CandidateRecord) (job : JobRecord) : Bool × ℚ × List String :=
  let therapy_score := therapy_score_of candidate job
  let language_score := language_score_of candidate job
  let compliance_score : ℚ := if cert_or_exp_ok candidate then 1.0 else 0.3
  let commute_score := compute_commute_score hav candidate job
  let overall := round3
    (0.35 * therapy_score + 0.25 * language_score + 0.20 * commute_score
      + 0.20 * compliance_score)
  let hard_pass : Bool :=
    therapy_score ≥ 1.0 ∧ (language_score > 0.0 ∨ job.languages.toFinset = ∅)
      ∧ cert_or_exp_ok candidate
  (hard_pass, overall,
    ["therapy_score", "language_score", "commute_score", "cert_or_exp_ok"])

/-! ## Transactional store (store.py): state and requests -/

/-- models.py `CandidateIngestRequest` (post pydantic validation). -/
structure CandidateIngestRequest where
  name : String
  phone : String
  source_channel : SourceChannel
  languages : List Language := []
  therapy_experience : List String := []
  experience_years : ℚ := 0
  certifications : List String := []
  expected_pay : Option Int := none
  current_location : Option Coordinates := none
  preferred_shift_start : Option String := none
  preferred_shift_end : Option String := none
  referred_by : Option String := none
  last_employer : Option String := none
  job_id : Option Id := none
deriving DecidableEq, Repr

/-- models.py `EmployerIntakeRequest` (post pydantic validation). -/
structure EmployerIntakeRequest where
  employer_name : String
  contact_phone : String
  role : String
  required_therapies : List String := []
  shift_start : String
  shift_end : String
  pay_min : Int
  pay_max : Int
  location_name : String
  location : Coordinates
  languages : List Language := []
  urgency_hours : Nat := 48
deriving DecidableEq, Repr

/-- models.py `ManualLeadCreateRequest` (post pydantic validation). -/
structure ManualLeadCreateRequest where
  source_channel : SourceChannel := .walk_in
  name : String
  phone : String
  languages : List Language := []
  therapy_experience : List String := []
  experience_years : ℚ := 0
  certifications : List String := []
  expected_pay : Option Int := none
  current_location : Option Coordinates := none
  preferred_shift_start : Option String := none
  preferred_shift_end : Option String := none
  referred_by : Option String := none
  last_employer : Option String := none
  job_id : Option Id := none
  neighborhood : Option String := none
  notes : Option String := none
  created_by : Option String := none
deriving DecidableEq, Repr

/-- models.py `WebsiteLeadCreateRequest` (post pydantic validation). -/
structure WebsiteLeadCreateRequest where
  name : String
  phone : String
  languages : List Language := []
  therapy_experience : List String := []
  experience_years : ℚ := 0
  certifications : List String := []
  expected_pay : Option Int := none
  current_location : Option Coordinates := none
  preferred_shift_start : Option String := none
  preferred_shift_end : Option String := none
  neighborhood : Option String := none
  notes : Option String := none
  job_id : Option Id := none
  campaign_id : Option Id := none
  utm_source : Option String := none
  utm_medium : Option String := none
  utm_campaign : Option String := none
  utm_term : Option String := none
  utm_content : Option String := none
  landing_path : Option String := none
  referrer : Option String := none
  session_id : Option String := none
deriving DecidableEq, Repr

/-- models.py `WebsiteEventRequest` (the free-form `metadata` is dropped). -/
structure WebsiteEventRequest where
  event_type : WebsiteEventType
  lead_id : Option Id := none
  campaign_id : Option Id := none
  session_id : Option String := none
  utm_source : Option String := none
  utm_medium : Option String := none
  utm_campaign : Option String := none
  landing_path : Option String := none
  referrer : Option String := none
deriving DecidableEq, Repr

/-- store.py `StoreConflictError` / `StoreNotFoundError`. -/
inductive StoreError where
  | conflict (msg : String)
  | notFound (msg : String)
deriving DecidableEq, Repr

/-- The collections owned by `InMemoryStore.__init__`, plus the id-counter
that models the `uuid4` supply.  Persistence is not attached. -/
structure State where
  nextId : Nat := 0
  employers : AList Id EmployerRecord := []
  jobs : AList Id JobRecord := []
  candidates : AList Id CandidateRecord := []
  applications : AList Id ApplicationRecord := []
  screenings : AList Id ScreeningRecord := []
  interviews : AList Id InterviewRecord := []
  offers : AList Id OfferRecord := []
  audit_events : List AuditEventRecord := []
  webhook_deliveries : AList String WebhookDeliveryRecord := []
  first_ten_campaigns : AList Id FirstTenCampaignRecord := []
  manual_leads : AList Id ManualLeadRecord := []
  website_leads : AList Id WebsiteLeadRecord := []
  website_events : AList Id WebsiteEventRecord := []
deriving DecidableEq, Repr

/-- The empty store built by `InMemoryStore.__init__` without persistence. -/
def initState : State := {}

/-- store.py `InMemoryStore._webhook_key`. -/
def webhook_key (channel : String) (event_id : String) : String :=
  channel ++ ":" ++ event_id

/-- Python truthiness of an `Optional[str]`: `None` and `""` are falsy. -/
def truthyStr (o : Option String) : Bool :=
  match o with
  | some s => s ≠ ""
  | none => false

/-- store.py `InMemoryStore.get_job`. -/
def get_job (s : State) (job_id : Id) : Except StoreError JobRecord :=
  match s.jobs.get? job_id with
  | some job => .ok job
  | none => .error (.notFound ("job not found: " ++ job_id))

/-- store.py `InMemoryStore.get_candidate`. -/
def get_candidate (s : State) (candidate_id : Id) : Except StoreError CandidateRecord :=
  match s.candidates.get? candidate_id with
  | some candidate => .ok candidate
  | none => .error (.notFound ("candidate not found: " ++ candidate_id))

/-- store.py `InMemoryStore.get_application`. -/
def get_application (s : State) (application_id : Id) : Except StoreError ApplicationRecord :=
  match s.applications.get? application_id with
  | some application => .ok application
  | none => .error (.notFound ("application not found: " ++ application_id))

/-- store.py `InMemoryStore.create_employer_and_job`.  `timedelta(hours=h)`
is `h * 3600` on the rational time axis (seconds). -/
def create_employer_and_job (s : State) (request : EmployerIntakeRequest) (now : ℚ) :
    (EmployerRecord × JobRecord) × State :=
  let employer : EmployerRecord :=
    { id := mkId s.nextId
      name := pyStrip request.employer_name
      contact_phone := pyStrip request.contact_phone
      created_at_utc := now }
  let job : JobRecord :=
    { id := mkId (s.nextId + 1)
      employer_id := employer.id
      role := pyLower (pyStrip request.role)
      required_therapies := request.required_therapies
      shift_start := request.shift_start
      shift_end := request.shift_end
      pay_min := request.pay_min
      pay_max := request.pay_max
      location_name := request.location_name
      location := request.location
      languages := request.languages
      sla_deadline_utc := now + (request.urgency_hours : ℚ) * 3600
      created_at_utc := now }
  ((employer, job),
    { s with
        nextId := s.nextId + 2
        employers := s.employers.set employer.id employer
        jobs := s.jobs.set job.id job })

/-- store.py `InMemoryStore.ingest_candidate`: scan all candidates in
insertion order through the dedup matcher; first hit is returned with
`deduplicated=True`, otherwise a new record is inserted. -/
def ingest_candidate (sim : String → String → ℚ) (s : State)
    (request : CandidateIngestRequest) (now : ℚ) : (CandidateRecord × Bool) × State :=
  match s.candidates.values.find? (fun candidate =>
      is_probable_duplicate sim candidate request.phone request.name request.last_employer) with
  | some candidate => ((candidate, true), s)
  | none =>
      let candidate : CandidateRecord :=
        { id := mkId s.nextId
          name := pyStrip request.name
          phone := pyStrip request.phone
          source_channel := request.source_channel
          languages := request.languages
          therapy_experience := request.therapy_experience
          experience_years := request.experience_years
          certifications := request.certifications
          expected_pay := request.expected_pay
          current_location := request.current_location
          preferred_shift_start := request.preferred_shift_start
          preferred_shift_end := request.preferred_shift_end
          referred_by := request.referred_by
          last_employer := request.last_employer
          created_at_utc := now }
      ((candidate, false),
        { s with
            nextId := s.nextId + 1
            candidates := s.candidates.set candidate.id candidate })

/-- store.py `InMemoryStore._add_audit_event`. -/
def add_audit_event (s : State) (application_id : Id) (from_stage : Option StageStatus)
    (to_stage : StageStatus) (reason : String) (now : ℚ) : State :=
  let event : AuditEventRecord :=
    { id := mkId s.nextId
      application_id := application_id
      from_stage := from_stage
      to_stage := to_stage
      reason := reason
      created_at_utc := now }
  { s with nextId := s.nextId + 1, audit_events := s.audit_events ++ [event] }

/-- store.py `InMemoryStore.create_or_get_application`. -/
def create_or_get_application (s : State) (job_id candidate_id : Id) (now : ℚ) :
    ApplicationRecord × State :=
  match s.applications.values.find? (fun application =>
      decide (application.job_id = job_id ∧ application.candidate_id = candidate_id)) with
  | some application => (application, s)
  | none =>
      let application : ApplicationRecord :=
        { id := mkId s.nextId
          job_id := job_id
          candidate_id := candidate_id
          stage := .new
          screening_score := none
          created_at_utc := now
          updated_at_utc := now }
      let s1 :=
        { s with
            nextId := s.nextId + 1
            applications := s.applications.set application.id application }
      (application, add_audit_event s1 application.id none .new "application_created" now)

/-- store.py `InMemoryStore.set_screening_score`. -/
def set_screening_score (s : State) (application_id : Id) (score : ℚ) (now : ℚ) :
    Except StoreError (ApplicationRecord × State) :=
  match s.applications.get? application_id with
  | none => .error (.notFound ("application not found: " ++ application_id))
  | some application =>
      let updated := { application with screening_score := some score, updated_at_utc := now }
      .ok (updated, { s with applications := s.applications.set updated.id updated })

/-- store.py `InMemoryStore.create_screening`. -/
def create_screening (s : State) (job_id candidate_id application_id : Id)
    (hard_filter_pass : Bool) (overall_fit_score : ℚ) (explanation : List String)
    (now : ℚ) : ScreeningRecord × State :=
  let screening : ScreeningRecord :=
    { id := mkId s.nextId
      job_id := job_id
      candidate_id := candidate_id
      application_id := application_id
      hard_filter_pass := hard_filter_pass
      overall_fit_score := overall_fit_score
      explanation := explanation
      created_at_utc := now }
  (screening,
    { s with nextId := s.nextId + 1, screenings := s.screenings.set screening.id screening })

/-- store.py `InMemoryStore.create_interview`. -/
def create_interview (s : State) (application_id : Id) (mode : String)
    (scheduled_at_utc : ℚ) (now : ℚ) : InterviewRecord × State :=
  let interview : InterviewRecord :=
    { id := mkId s.nextId
      application_id := application_id
      mode := mode
      scheduled_at_utc := scheduled_at_utc
      created_at_utc := now }
  (interview,
    { s with nextId := s.nextId + 1, interviews := s.interviews.set interview.id interview })

/-- store.py `InMemoryStore.create_offer`: idempotent per application. -/
def create_offer (s : State) (application_id : Id) (monthly_pay : Int)
    (joining_date : ℚ) (now : ℚ) : OfferRecord × State :=
  match s.offers.values.find? (fun offer => decide (offer.application_id = application_id)) with
  | some offer => (offer, s)
  | none =>
      let offer : OfferRecord :=
        { id := mkId s.nextId
          application_id := application_id
          monthly_pay := monthly_pay
          joining_date := joining_date
          status := "pending_acceptance"
          created_at_utc := now }
      (offer, { s with nextId := s.nextId + 1, offers := s.offers.set offer.id offer })

/-- store.py `InMemoryStore.transition_application`. -/
def transition_application (s : State) (application_id : Id) (to_stage : StageStatus)
    (reason : String) (now : ℚ) : Except StoreError (ApplicationRecord × State) :=
  match s.applications.get? application_id with
  | none => .error (.notFound ("application not found: " ++ application_id))
  | some application =>
      if application.stage = to_stage then .ok (application, s)
      else if to_stage ∉ ALLOWED_TRANSITIONS application.stage then
        .error (.conflict
          ("invalid transition " ++ application.stage.value ++ " -> " ++ to_stage.value))
      else
        let from_stage := application.stage
        let updated := { application with stage := to_stage, updated_at_utc := now }
        let s1 := { s with applications := s.applications.set updated.id updated }
        .ok (updated, add_audit_event s1 updated.id (some from_stage) to_stage reason now)

/-- store.py `InMemoryStore.get_webhook_delivery`. -/
def get_webhook_delivery (s : State) (channel event_id : String) :
    Option WebhookDeliveryRecord :=
  s.webhook_deliveries.get? (webhook_key channel event_id)

/-- store.py `InMemoryStore.ensure_webhook_delivery`: get-or-create, initial
status `received`, attempts 0. -/
def ensure_webhook_delivery (s : State) (channel event_id : String) (now : ℚ) :
    WebhookDeliveryRecord × State :=
  let key := webhook_key channel event_id
  match s.webhook_deliveries.get? key with
  | some existing => (existing, s)
  | none =>
      let record : WebhookDeliveryRecord :=
        { id := mkId s.nextId
          key := key
          channel := channel
          event_id := event_id
          status := .received
          attempts := 0
          last_error := none
          next_retry_utc := none
          created_at_utc := now
          updated_at_utc := now }
      (record,
        { s with
            nextId := s.nextId + 1
            webhook_deliveries := s.webhook_deliveries.set key record })

/-- store.py `InMemoryStore.record_webhook_attempt`.  `timedelta(seconds=x)`
is `x` on the rational time axis; the Python fallback
`error or "unknown webhook processing error"` treats an empty error string
as absent. -/
def record_webhook_attempt (s : State) (channel event_id : String) (success : Bool)
    (error : Option String) (transient : Bool) (max_retries : Nat)
    (backoff_seconds : ℚ) (now : ℚ) : WebhookDeliveryRecord × State :=
  let key := webhook_key channel event_id
  let (record, s0) :=
    match s.webhook_deliveries.get? key with
    | some record => (record, s)
    | none =>
        let record : WebhookDeliveryRecord :=
          { id := mkId s.nextId
            key := key
            channel := channel
            event_id := event_id
            status := .received
            attempts := 0
            last_error := none
            next_retry_utc := none
            created_at_utc := now
            updated_at_utc := now }
        (record,
          { s with
              nextId := s.nextId + 1
              webhook_deliveries := s.webhook_deliveries.set key record })
  let attempts := record.attempts + 1
  let outcome : WebhookProcessingStatus × Option ℚ × Option String :=
    if success then (.processed, none, none)
    else
      let err := match error with
        | some e => if e = "" then "unknown webhook processing error" else e
        | none => "unknown webhook processing error"
      if transient ∧ attempts < max_retries then
        (.retry_pending, some (now + backoff_seconds * (attempts : ℚ)), some err)
      else (.failed, none, some err)
  let updated :=
    { record with
        attempts := attempts
        status := outcome.1
        last_error := outcome.2.2
        next_retry_utc := outcome.2.1
        updated_at_utc := now }
  (updated, { s0 with webhook_deliveries := s0.webhook_deliveries.set key updated })

/-- store.py `InMemoryStore.register_webhook_event` (legacy helper). -/
def register_webhook_event (s : State) (event_id : String) (now : ℚ) : Bool × State :=
  match get_webhook_delivery s "legacy" event_id with
  | some existing =>
      if existing.status = .processed then (true, s)
      else
        let r := record_webhook_attempt s "legacy" event_id true none false 3 60 now
        (false, r.2)
  | none =>
      let r := record_webhook_attempt s "legacy" event_id true none false 3 60 now
      (false, r.2)

/-- store.py `InMemoryStore.create_first_ten_campaign`. -/
def create_first_ten_campaign (s : State) (employer_name city : String)
    (neighborhood_focus : List String) (whatsapp_business_number : String)
    (target_joiners : Nat) (fresher_preferred : Bool)
    (first_contact_sla_minutes : Option Nat) (now : ℚ) : FirstTenCampaignRecord × State :=
  let campaign : FirstTenCampaignRecord :=
    { id := mkId s.nextId
      employer_name := pyStrip employer_name
      city := city
      neighborhood_focus := neighborhood_focus
      whatsapp_business_number := pyStrip whatsapp_business_number
      target_joiners := target_joiners
      fresher_preferred := fresher_preferred
      first_contact_sla_minutes := first_contact_sla_minutes
      counts := [("leads", 0), ("screened", 0), ("trials", 0), ("offers", 0), ("joined", 0)]
      created_at_utc := now
      updated_at_utc := now }
  (campaign,
    { s with
        nextId := s.nextId + 1
        first_ten_campaigns := s.first_ten_campaigns.set campaign.id campaign })

/-- store.py `InMemoryStore.get_first_ten_campaign`. -/
def get_first_ten_campaign (s : State) (campaign_id : Id) :
    Except StoreError FirstTenCampaignRecord :=
  match s.first_ten_campaigns.get? campaign_id with
  | some campaign => .ok campaign
  | none => .error (.notFound ("campaign not found: " ++ campaign_id))

/-- store.py `InMemoryStore.create_manual_lead`: ingest the candidate,
optionally create-or-get the application (`if request.job_id:` is Python
truthiness, so an empty-string job id is skipped), then insert the lead. -/
def create_manual_lead (sim : String → String → ℚ) (s : State)
    (request : ManualLeadCreateRequest) (now : ℚ) :
    (ManualLeadRecord × CandidateRecord × Bool) × State :=
  let candidate_request : CandidateIngestRequest :=
    { name := request.name
      phone := request.phone
      source_channel := request.source_channel
      languages := request.languages
      therapy_experience := request.therapy_experience
      experience_years := request.experience_years
      certifications := request.certifications
      expected_pay := request.expected_pay
      current_location := request.current_location
      preferred_shift_start := request.preferred_shift_start
      preferred_shift_end := request.preferred_shift_end
      referred_by := request.referred_by
      last_employer := request.last_employer
      job_id := request.job_id }
  let r1 := ingest_candidate sim s candidate_request now
  let candidate := r1.1.1
  let deduplicated := r1.1.2
  let s1 := r1.2
  let r2 : Option Id × State :=
    if truthyStr request.job_id then
      let r := create_or_get_application s1 (request.job_id.getD "") candidate.id now
      (some r.1.id, r.2)
    else (none, s1)
  let s2 := r2.2
  let lead : ManualLeadRecord :=
    { id := mkId s2.nextId
      source_channel := request.source_channel
      name := pyStrip request.name
      phone := pyStrip request.phone
      languages := request.languages
      therapy_experience := request.therapy_experience
      experience_years := request.experience_years
      certifications := request.certifications
      expected_pay := request.expected_pay
      current_location := request.current_location
      preferred_shift_start := request.preferred_shift_start
      preferred_shift_end := request.preferred_shift_end
      referred_by := request.referred_by
      last_employer := request.last_employer
      job_id := request.job_id
      neighborhood := request.neighborhood
      notes := request.notes
      created_by := request.created_by
      candidate_id := candidate.id
      deduplicated := deduplicated
      application_id := r2.1
      created_at_utc := now }
  ((lead, candidate, deduplicated),
    { s2 with
        nextId := s2.nextId + 1
        manual_leads := s2.manual_leads.set lead.id lead })

/-- store.py `InMemoryStore._build_wa_link` (the `quote_plus` percent
encoding of the message text is not modelled). -/
def build_wa_link (phone : String) (text : String) : String :=
  let normalized := String.mk (phone.toList.filter Char.isDigit)
  let normalized := if normalized = "" then "919187351205" else normalized
  "https://wa.me/" ++ normalized ++ "?text=" ++ text

/-- store.py `InMemoryStore.create_website_lead`.  `timedelta(minutes=m)` is
`m * 60` seconds; `if campaign and campaign.first_contact_sla_minutes` uses
Python truthiness (an SLA override of 0 would fall back to the default). -/
def create_website_lead (sim : String → String → ℚ) (s : State)
    (request : WebsiteLeadCreateRequest) (default_first_contact_sla_minutes : Nat)
    (default_whatsapp_number : String) (now : ℚ) :
    Except StoreError ((WebsiteLeadRecord × CandidateRecord × Bool) × State) :=
  match
    (if truthyStr request.campaign_id then
      match get_first_ten_campaign s (request.campaign_id.getD "") with
      | .ok c => .ok (some c)
      | .error e => .error e
    else .ok none : Except StoreError (Option FirstTenCampaignRecord)) with
  | .error e => .error e
  | .ok campaign =>
  let effective_sla : Nat :=
    match campaign with
    | some c =>
        match c.first_contact_sla_minutes with
        | some m => if m ≠ 0 then m else default_first_contact_sla_minutes
        | none => default_first_contact_sla_minutes
    | none => default_first_contact_sla_minutes
  let whatsapp_number :=
    match campaign with
    | some c => c.whatsapp_business_number
    | none => default_whatsapp_number
  let candidate_request : CandidateIngestRequest :=
    { name := request.name
      phone := request.phone
      source_channel := .web
      languages := request.languages
      therapy_experience := request.therapy_experience
      experience_years := request.experience_years
      certifications := request.certifications
      expected_pay := request.expected_pay
      current_location := request.current_location
      preferred_shift_start := request.preferred_shift_start
      preferred_shift_end := request.preferred_shift_end
      job_id := request.job_id }
  let r1 := ingest_candidate sim s candidate_request now
  let candidate := r1.1.1
  let deduplicated := r1.1.2
  let s1 := r1.2
  let r2 : Option Id × State :=
    if truthyStr request.job_id then
      let r := create_or_get_application s1 (request.job_id.getD "") candidate.id now
      (some r.1.id, r.2)
    else (none, s1)
  let s2 := r2.2
  let first_contact_due_utc := now + (effective_sla : ℚ) * 60
  let message :=
    "Hi, I want to apply as a therapist. Name: " ++ pyStrip request.name
      ++ ", Phone: " ++ pyStrip request.phone ++ "."
  let lead : WebsiteLeadRecord :=
    { id := mkId s2.nextId
      candidate_id := candidate.id
      deduplicated := deduplicated
      application_id := r2.1
      name := pyStrip request.name
      phone := pyStrip request.phone
      neighborhood := request.neighborhood
      campaign_id := request.campaign_id
      job_id := request.job_id
      utm_source := request.utm_source
      utm_medium := request.utm_medium
      utm_campaign := request.utm_campaign
      utm_term := request.utm_term
      utm_content := request.utm_content
      landing_path := request.landing_path
      referrer := request.referrer
      session_id := request.session_id
      wa_link_generated := build_wa_link whatsapp_number message
      wa_click_count := 0
      first_contact_sla_minutes_effective := effective_sla
      first_contact_due_utc := first_contact_due_utc
      first_contact_at_utc := none
      sla_breached := false
      created_at_utc := now
      updated_at_utc := now }
  .ok ((lead, candidate, deduplicated),
    { s2 with
        nextId := s2.nextId + 1
        website_leads := s2.website_leads.set lead.id lead })

/-- store.py `InMemoryStore.list_website_leads`: snapshot, filter by
campaign and queue mode, sort by creation time descending, clamp the
limit to [1, 500]. -/
def list_website_leads (s : State) (limit : Nat) (campaign_id : Option Id)
    (queue_mode : WebsiteLeadQueueMode) (now : ℚ) : List WebsiteLeadRecord :=
  let records := s.website_leads.values
  let records : List WebsiteLeadRecord :=
    if truthyStr campaign_id then
      records.filter (fun item => decide (item.campaign_id = campaign_id))
    else records
  let due_window := now + 15 * 60
  let fresh_cutoff := now - 10 * 60
  let records : List WebsiteLeadRecord :=
    match queue_mode with
    | .overdue =>
        records.filter (fun item =>
          decide (item.first_contact_at_utc = none ∧ item.first_contact_due_utc < now))
    | .due_soon =>
        records.filter (fun item =>
          decide (item.first_contact_at_utc = none ∧ now ≤ item.first_contact_due_utc
            ∧ item.first_contact_due_utc ≤ due_window))
    | .hot_new =>
        records.filter (fun item =>
          decide (item.first_contact_at_utc = none ∧ item.created_at_utc ≥ fresh_cutoff))
    | .all => records
  let sorted := records.mergeSort (fun a b => decide (b.created_at_utc ≤ a.created_at_utc))
  sorted.take (max 1 (min limit 500))

/-- store.py `InMemoryStore.mark_website_lead_contacted`.  The Python
fallback `contacted_at_utc or utc_now()` is `Option.getD`: `datetime`
objects are always truthy. -/
def mark_website_lead_contacted (s : State) (lead_id : Id)
    (contacted_at_utc : Option ℚ) (now : ℚ) :
    Except StoreError (WebsiteLeadRecord × State) :=
  match s.website_leads.get? lead_id with
  | none => .error (.notFound ("website lead not found: " ++ lead_id))
  | some lead =>
      let first_contact_at_utc := contacted_at_utc.getD now
      let updated :=
        { lead with
            first_contact_at_utc := some first_contact_at_utc
            sla_breached := decide (first_contact_at_utc > lead.first_contact_due_utc)
            updated_at_utc := now }
      .ok (updated, { s with website_leads := s.website_leads.set lead_id updated })

/-- store.py `InMemoryStore.record_website_event`. -/
def record_website_event (s : State) (request : WebsiteEventRequest) (now : ℚ) :
    Except StoreError (WebsiteEventRecord × State) :=
  if truthyStr request.lead_id ∧ ¬ s.website_leads.contains (request.lead_id.getD "") then
    .error (.notFound ("website lead not found: " ++ request.lead_id.getD ""))
  else if truthyStr request.campaign_id
      ∧ ¬ s.first_ten_campaigns.contains (request.campaign_id.getD "") then
    .error (.notFound ("campaign not found: " ++ request.campaign_id.getD ""))
  else
    let event : WebsiteEventRecord :=
      { id := mkId s.nextId
        event_type := request.event_type
        lead_id := request.lead_id
        campaign_id := request.campaign_id
        session_id := request.session_id
        utm_source := request.utm_source
        utm_medium := request.utm_medium
        utm_campaign := request.utm_campaign
        landing_path := request.landing_path
        referrer := request.referrer
        created_at_utc := now }
    let s1 :=
      { s with
          nextId := s.nextId + 1
          website_events := s.website_events.set event.id event }
    if request.event_type = .wa_click ∧ truthyStr request.lead_id then
      match s1.website_leads.get? (request.lead_id.getD "") with
      | some lead =>
          .ok (event,
            { s1 with
                website_leads := s1.website_leads.set (request.lead_id.getD "")
                  { lead with
                      wa_click_count := lead.wa_click_count + 1
                      updated_at_utc := now } })
      | none => .ok (event, s1)
    else .ok (event, s1)

/-- store.py `InMemoryStore.log_first_ten_event`: adds (never replaces) the
count in the named funnel bucket. -/
def log_first_ten_event (s : State) (campaign_id : Id) (event_type : CampaignEventType)
    (count : Int) (now : ℚ) : Except StoreError (FirstTenCampaignRecord × State) :=
  match s.first_ten_campaigns.get? campaign_id with
  | none => .error (.notFound ("campaign not found: " ++ campaign_id))
  | some campaign =>
      let prev := (campaign.counts.get? event_type.value).getD 0
      let updated :=
        { campaign with
            counts := campaign.counts.set event_type.value (prev + count)
            updated_at_utc := now }
      .ok (updated,
        { s with first_ten_campaigns := s.first_ten_campaigns.set campaign_id updated })

/-! ## Channel event processor (services/channel_events.py) and webhook
handler (main.py) -/

/-- A JSON-ish Python value as found in the free-form webhook `payload`
dict. -/
inductive PVal where
  | null
  | boolean (b : Bool)
  | num (q : ℚ)
  | str (s : String)
  | arr (items : List PVal)
  | obj (entries : List (String × PVal))

/-- Python truthiness for `PVal`. -/
def PVal.truthy : PVal → Bool
  | .null => false
  | .boolean b => b
  | .num q => q ≠ 0
  | .str s => s ≠ ""
  | .arr items => !items.isEmpty
  | .obj entries => !entries.isEmpty

/-- `d.get(k)`: `None` when the key is missing. -/
def dictGet (d : AList String PVal) (k : String) : PVal :=
  (d.get? k).getD .null

/-- `d.get(k, default)`. -/
def dictGetD (d : AList String PVal) (k : String) (default : PVal) : PVal :=
  (d.get? k).getD default

/-- Python `a or b`: the first truthy operand, else the last. -/
def pyOr (a b : PVal) : PVal :=
  if a.truthy then a else b

/-- An `Optional[str]` seen as a Python value. -/
def optStrPVal : Option String → PVal
  | some s => .str s
  | none => .null

/-- models.py `WebhookEventRequest` (post pydantic validation of the outer
envelope; `payload` stays a free-form dict). -/
structure WebhookEventRequest where
  event_id : String
  phone : Option String := none
  event_type : Option String := none
  payload : AList String PVal := []

/-- channel_events.py `TransientWebhookError` / `PermanentWebhookError`. -/
inductive ChannelError where
  | transient (msg : String)
  | permanent (msg : String)
deriving DecidableEq, Repr

/-- channel_events.py `_parse_languages`: keep string entries naming a known
language, silently skip everything else; non-lists become `[]`. -/
def parse_languages : PVal → List Language
  | .arr items =>
      items.filterMap (fun v =>
        match v with
        | .str s => Language.ofCode s
        | _ => none)
  | _ => []

/-- Pydantic check of `list[str]`. -/
def vListStr : PVal → Option (List String)
  | .arr items =>
      items.mapM (fun v =>
        match v with
        | .str s => some s
        | _ => none)
  | _ => none

/-- Pydantic check of `experience_years: float ge=0 le=50` (numeric-string
coercion is not modelled). -/
def vExpYears : PVal → Option ℚ
  | .num q => if 0 ≤ q ∧ q ≤ 50 then some q else none
  | _ => none

/-- Pydantic check of `expected_pay: Optional[int] ge=1`. -/
def vExpectedPay : PVal → Option (Option Int)
  | .null => some none
  | .num q => if q.den = 1 ∧ 1 ≤ q then some (some q.num) else none
  | _ => none

/-- Pydantic check of `current_location: Optional[Coordinates]`. -/
def vLocation : PVal → Option (Option Coordinates)
  | .null => some none
  | .obj entries =>
      match AList.get? entries "lat", AList.get? entries "lon" with
      | some (.num lat), some (.num lon) =>
          if -90 ≤ lat ∧ lat ≤ 90 ∧ -180 ≤ lon ∧ lon ≤ 180 then
            some (some { lat := lat, lon := lon })
          else none
      | _, _ => none
  | _ => none

/-- Pydantic check of an `Optional[str]` field. -/
def vOptStr : PVal → Option (Option String)
  | .null => some none
  | .str s => some (some s)
  | _ => none

/-- `CandidateIngestRequest.model_validate` on the `request_data` dict built
by `_build_ingest_request` (name and phone arrive pre-stripped, the
languages pre-parsed, the source channel as a valid enum value). -/
def validate_candidate_ingest (name phone : String) (source_channel : SourceChannel)
    (languages : List Language) (therapy_experience experience_years certifications
    expected_pay current_location preferred_shift_start preferred_shift_end
    referred_by last_employer job_id : PVal) : Option CandidateIngestRequest :=
  if (2 ≤ name.length ∧ name.length ≤ 120)
      ∧ (8 ≤ phone.length ∧ phone.length ≤ 20) then
    match vListStr therapy_experience, vExpYears experience_years,
        vListStr certifications, vExpectedPay expected_pay, vLocation current_location,
        vOptStr preferred_shift_start, vOptStr preferred_shift_end, vOptStr referred_by,
        vOptStr last_employer, vOptStr job_id with
    | some therapy_experience, some experience_years, some certifications,
      some expected_pay, some current_location, some preferred_shift_start,
      some preferred_shift_end, some referred_by, some last_employer, some job_id =>
        some
          { name := name
            phone := phone
            source_channel := source_channel
            languages := languages
            therapy_experience := therapy_experience
            experience_years := experience_years
            certifications := certifications
            expected_pay := expected_pay
            current_location := current_location
            preferred_shift_start := preferred_shift_start
            preferred_shift_end := preferred_shift_end
            referred_by := referred_by
            last_employer := last_employer
            job_id := job_id }
    | _, _, _, _, _, _, _, _, _, _ => none
  else none

/-- The candidate name extracted by `_build_ingest_request`:
`data.get("name") or data.get("candidate_name")`. -/
def extracted_name (payload : WebhookEventRequest) : PVal :=
  pyOr (dictGet payload.payload "name") (dictGet payload.payload "candidate_name")

/-- The candidate phone extracted by `_build_ingest_request`:
`payload.phone or data.get("phone") or fallback_phone`. -/
def extracted_phone (payload : WebhookEventRequest) (fallback_phone : Option String) : PVal :=
  pyOr (pyOr (optStrPVal payload.phone) (dictGet payload.payload "phone"))
    (optStrPVal fallback_phone)

/-- The mandatory-field check of `_build_ingest_request`:
`isinstance(x, str) and x.strip()`. -/
def hasNonEmptyStr (v : PVal) : Prop :=
  ∃ s, v = .str s ∧ pyStrip s ≠ ""

/-- channel_events.py `_build_ingest_request`.  (The Python error message
for a pydantic failure interpolates `exc.errors()`; the model uses a fixed
message.) -/
def build_ingest_request (payload : WebhookEventRequest) (source_channel : SourceChannel)
    (fallback_phone : Option String) : Except ChannelError CandidateIngestRequest :=
  match extracted_name payload with
  | .str name =>
      if pyStrip name = "" then .error (.permanent "candidate lead missing name")
      else
        match extracted_phone payload fallback_phone with
        | .str phone =>
            if pyStrip phone = "" then .error (.permanent "candidate lead missing phone")
            else
              match validate_candidate_ingest (pyStrip name) (pyStrip phone) source_channel
                  (parse_languages (dictGet payload.payload "languages"))
                  (dictGetD payload.payload "therapy_experience" (.arr []))
                  (dictGetD payload.payload "experience_years" (.num 0))
                  (dictGetD payload.payload "certifications" (.arr []))
                  (dictGet payload.payload "expected_pay")
                  (dictGet payload.payload "current_location")
                  (dictGet payload.payload "preferred_shift_start")
                  (dictGet payload.payload "preferred_shift_end")
                  (dictGet payload.payload "referred_by")
                  (dictGet payload.payload "last_employer")
                  (dictGet payload.payload "job_id") with
              | some request => .ok request
              | none => .error (.permanent "invalid candidate lead payload")
        | _ => .error (.permanent "candidate lead missing phone")
  | _ => .error (.permanent "candidate lead missing name")

/-- channel_events.py `_source_channel_for_event`. -/
def source_channel_for_event (channel : String) (event_type : String) : SourceChannel :=
  if event_type = "referral_lead" then .referral
  else if event_type = "call_lead" then .call
  else if channel = "whatsapp" then .whatsapp
  else .call

/-- channel_events.py `process_channel_event`.  A raised error carries the
store state at raise time (all raises happen before any mutation). -/
def process_channel_event (sim : String → String → ℚ) (s : State) (channel : String)
    (payload : WebhookEventRequest) (now : ℚ) :
    Except (ChannelError × State) (String × State) :=
  if (dictGet payload.payload "simulate_transient_error").truthy then
    .error (.transient "provider timeout, retry needed", s)
  else if (dictGet payload.payload "simulate_permanent_error").truthy then
    .error (.permanent "payload rejected by channel processor", s)
  else
    let event_type := pyLower (pyStrip (payload.event_type.getD ""))
    if event_type ∉ ["candidate_lead", "referral_lead", "call_lead"] then
      .ok ("ignored_event_type", s)
    else
      let source_channel := source_channel_for_event channel event_type
      match build_ingest_request payload source_channel payload.phone with
      | .error e => .error (e, s)
      | .ok ingest_request =>
          let jobCheck : Except (ChannelError × State) Unit :=
            if truthyStr ingest_request.job_id then
              match get_job s (ingest_request.job_id.getD "") with
              | .ok _ => .ok ()
              | .error (.notFound msg) => .error (.permanent msg, s)
              | .error (.conflict msg) => .error (.permanent msg, s)
            else .ok ()
          match jobCheck with
          | .error e => .error e
          | .ok _ =>
              let r := ingest_candidate sim s ingest_request now
              let candidate := r.1.1
              let deduplicated := r.1.2
              let s1 := r.2
              let s2 :=
                if truthyStr ingest_request.job_id then
                  (create_or_get_application s1 (ingest_request.job_id.getD "")
                    candidate.id now).2
                else s1
              .ok ("candidate_upserted:" ++ candidate.id ++ ":dedup="
                ++ (if deduplicated then "true" else "false"), s2)

/-- The two settings fields the webhook handlers read.  `load_settings`
clamps `webhook_max_retries = max(1, ...)` and
`webhook_retry_backoff_seconds = max(1, ...)`. -/
structure Settings where
  webhook_max_retries : Nat
  webhook_retry_backoff_seconds : ℚ
deriving DecidableEq, Repr

/-- models.py `WebhookEventResponse`. -/
structure WebhookEventResponse where
  status : String
  attempts : Option Nat := none
  next_retry_utc : Option ℚ := none
  detail : Option String := none
deriving DecidableEq, Repr

/-- main.py `whatsapp_webhook` after signature verification and JSON
parsing (both out of scope): the idempotency-protocol part of the handler.
`telephony_webhook` is the same body with `channel="telephony"`. -/
def channel_webhook (sim : String → String → ℚ) (settings : Settings) (s : State)
    (channel : String) (payload : WebhookEventRequest) (now : ℚ) :
    WebhookEventResponse × State :=
  let r0 := ensure_webhook_delivery s channel payload.event_id now
  let existing := r0.1
  let s0 := r0.2
  if existing.status.value = "processed" then
    ({ status := "duplicate", attempts := some existing.attempts }, s0)
  else if existing.status.value = "failed" then
    ({ status := "failed", attempts := some existing.attempts,
       detail := some "max retries reached; manual intervention required" }, s0)
  else
    match process_channel_event sim s0 channel payload now with
    | .ok (detail, s1) =>
        let r := record_webhook_attempt s1 channel payload.event_id true none false
          settings.webhook_max_retries settings.webhook_retry_backoff_seconds now
        ({ status := "processed", attempts := some r.1.attempts, detail := some detail }, r.2)
    | .error (.transient msg, s1) =>
        let r := record_webhook_attempt s1 channel payload.event_id false (some msg) true
          settings.webhook_max_retries settings.webhook_retry_backoff_seconds now
        ({ status := r.1.status.value, attempts := some r.1.attempts,
           next_retry_utc := r.1.next_retry_utc, detail := r.1.last_error }, r.2)
    | .error (.permanent msg, s1) =>
        let r := record_webhook_attempt s1 channel payload.event_id false (some msg) false
          settings.webhook_max_retries settings.webhook_retry_backoff_seconds now
        ({ status := r.1.status.value, attempts := some r.1.attempts,
           detail := r.1.last_error }, r.2)

/-! ## Reachable store states

Every mutating entry point of `InMemoryStore` becomes one operation; a
reachable state is any state obtained from the freshly-constructed store
by a sequence of operations (an operation that raises leaves the state
unchanged — every raise in store.py happens before the first mutation of
its operation). -/

/-- One mutating `InMemoryStore` call. -/
inductive Op where
  | createEmployerAndJob (request : EmployerIntakeRequest) (now : ℚ)
  | ingestCandidate (request : CandidateIngestRequest) (now : ℚ)
  | createOrGetApplication (job_id candidate_id : Id) (now : ℚ)
  | setScreeningScore (application_id : Id) (score : ℚ) (now : ℚ)
  | createScreening (job_id candidate_id application_id : Id) (hard_filter_pass : Bool)
      (overall_fit_score : ℚ) (explanation : List String) (now : ℚ)
  | createInterview (application_id : Id) (mode : String) (scheduled_at_utc now : ℚ)
  | createOffer (application_id : Id) (monthly_pay : Int) (joining_date now : ℚ)
  | transitionApplication (application_id : Id) (to_stage : StageStatus)
      (reason : String) (now : ℚ)
  | ensureWebhookDelivery (channel event_id : String) (now : ℚ)
  | recordWebhookAttempt (channel event_id : String) (success : Bool)
      (error : Option String) (transient : Bool) (max_retries : Nat)
      (backoff_seconds now : ℚ)
  | registerWebhookEvent (event_id : String) (now : ℚ)
  | createFirstTenCampaign (employer_name city : String)
      (neighborhood_focus : List String) (whatsapp_business_number : String)
      (target_joiners : Nat) (fresher_preferred : Bool)
      (first_contact_sla_minutes : Option Nat) (now : ℚ)
  | createManualLead (request : ManualLeadCreateRequest) (now : ℚ)
  | createWebsiteLead (request : WebsiteLeadCreateRequest)
      (default_first_contact_sla_minutes : Nat) (default_whatsapp_number : String)
      (now : ℚ)
  | markWebsiteLeadContacted (lead_id : Id) (contacted_at_utc : Option ℚ) (now : ℚ)
  | recordWebsiteEvent (request : WebsiteEventRequest) (now : ℚ)
  | logFirstTenEvent (campaign_id : Id) (event_type : CampaignEventType)
      (count : Int) (now : ℚ)

/-- The state after one store call (outputs discarded; raises leave the
state unchanged). -/
def step (sim : String → String → ℚ) (o : Op) (s : State) : State :=
  match o with
  | .createEmployerAndJob request now => (create_employer_and_job s request now).2
  | .ingestCandidate request now => (ingest_candidate sim s request now).2
  | .createOrGetApplication job_id candidate_id now =>
      (create_or_get_application s job_id candidate_id now).2
  | .setScreeningScore application_id score now =>
      match set_screening_score s application_id score now with
      | .ok r => r.2
      | .error _ => s
  | .createScreening job_id candidate_id application_id hard_filter_pass
      overall_fit_score explanation now =>
      (create_screening s job_id candidate_id application_id hard_filter_pass
        overall_fit_score explanation now).2
  | .createInterview application_id mode scheduled_at_utc now =>
      (create_interview s application_id mode scheduled_at_utc now).2
  | .createOffer application_id monthly_pay joining_date now =>
      (create_offer s application_id monthly_pay joining_date now).2
  | .transitionApplication application_id to_stage reason now =>
      match transition_application s application_id to_stage reason now with
      | .ok r => r.2
      | .error _ => s
  | .ensureWebhookDelivery channel event_id now =>
      (ensure_webhook_delivery s channel event_id now).2
  | .recordWebhookAttempt channel event_id success error transient max_retries
      backoff_seconds now =>
      (record_webhook_attempt s channel event_id success error transient max_retries
        backoff_seconds now).2
  | .registerWebhookEvent event_id now => (register_webhook_event s event_id now).2
  | .createFirstTenCampaign employer_name city neighborhood_focus
      whatsapp_business_number target_joiners fresher_preferred
      first_contact_sla_minutes now =>
      (create_first_ten_campaign s employer_name city neighborhood_focus
        whatsapp_business_number target_joiners fresher_preferred
        first_contact_sla_minutes now).2
  | .createManualLead request now => (create_manual_lead sim s request now).2
  | .createWebsiteLead request default_first_contact_sla_minutes
      default_whatsapp_number now =>
      match create_website_lead sim s request default_first_contact_sla_minutes
          default_whatsapp_number now with
      | .ok r => r.2
      | .error _ => s
  | .markWebsiteLeadContacted lead_id contacted_at_utc now =>
      match mark_website_lead_contacted s lead_id contacted_at_utc now with
      | .ok r => r.2
      | .error _ => s
  | .recordWebsiteEvent request now =>
      match record_website_event s request now with
      | .ok r => r.2
      | .error _ => s
  | .logFirstTenEvent campaign_id event_type count now =>
      match log_first_ten_event s campaign_id event_type count now with
      | .ok r => r.2
      | .error _ => s

/-- The state after a sequence of store calls. -/
def run (sim : String → String → ℚ) (ops : List Op) (s : State) : State :=
  ops.foldl (fun t o => step sim o t) s

/-- States reachable from the freshly-constructed store. -/
inductive Reachable (sim : String → String → ℚ) : State → Prop where
  | init : Reachable sim initState
  | step (o : Op) {s : State} : Reachable sim s → Reachable sim (step sim o s)

/-! ## Definitions used by the claim statements -/

/-- The applications of one (job, candidate) pair, in insertion order. -/
def appsOfPair (s : State) (job_id candidate_id : Id) : List ApplicationRecord :=
  s.applications.values.filter (fun a =>
    decide (a.job_id = job_id ∧ a.candidate_id = candidate_id))

/-- The synthetic audit event written by `create_or_get_application`:
reason `"application_created"`, from-stage null. -/
def isCreationEvent (e : AuditEventRecord) : Prop :=
  e.reason = "application_created" ∧ e.from_stage = none

instance (e : AuditEventRecord) : Decidable (isCreationEvent e) := by
  unfold isCreationEvent; infer_instance

/-- The creation audit events attached (through their application) to one
(job, candidate) pair. -/
def creationEventsOfPair (s : State) (job_id candidate_id : Id) : List AuditEventRecord :=
  s.audit_events.filter (fun e =>
    decide (isCreationEvent e ∧ ∃ a ∈ s.applications.values,
      a.id = e.application_id ∧ a.job_id = job_id ∧ a.candidate_id = candidate_id))

/-- `k` iterations of the webhook handler on an identical request. -/
def webhook_replay (sim : String → String → ℚ) (settings : Settings) (s : State)
    (channel : String) (payload : WebhookEventRequest) (now : ℚ) : Nat → State
  | 0 => s
  | Nat.succ k =>
      (channel_webhook sim settings (webhook_replay sim settings s channel payload now k)
        channel payload now).2

/-- A website lead that has been contacted: its record exists and carries a
non-null `first_contact_at_utc`. -/
def contactedLead (s : State) (k : Id) : Prop :=
  ∃ r, s.website_leads.get? k = some r ∧ r.first_contact_at_utc ≠ none

/-- The well-formedness invariant of reachable stores: map keys coincide
with record ids and were drawn from the id counter (so they are pairwise
distinct and fresh ids cannot collide), each application's (job,
candidate) pair is unique, and creation audit events are in bijection
with applications. -/
structure Inv (s : State) : Prop where
  apps_keyed : ∀ p ∈ s.applications, p.2.id = p.1
  apps_fresh : ∀ p ∈ s.applications, ∃ n, p.1 = mkId n ∧ n < s.nextId
  apps_nodup : s.applications.keys.Nodup
  leads_keyed : ∀ p ∈ s.website_leads, p.2.id = p.1
  leads_fresh : ∀ p ∈ s.website_leads, ∃ n, p.1 = mkId n ∧ n < s.nextId
  leads_nodup : s.website_leads.keys.Nodup
  pair_unique : ∀ a ∈ s.applications.values, ∀ b ∈ s.applications.values,
    a.job_id = b.job_id → a.candidate_id = b.candidate_id → a = b
  audit_one : ∀ a ∈ s.applications.values,
    (s.audit_events.filter (fun e =>
      decide (isCreationEvent e ∧ e.application_id = a.id))).length = 1
  audit_ref : ∀ e ∈ s.audit_events, isCreationEvent e →
    ∃ a ∈ s.applications.values, a.id = e.application_id

/-! ## Concrete fixtures used by the witnesses -/

/-- A candidate with no location, no certifications, two years of
experience. -/
def candidateC6 : CandidateRecord :=
  { id := "c", name := "Asha", phone := "9000000000", source_channel := .whatsapp,
    languages := [.kn], therapy_experience := [], experience_years := 2,
    certifications := [], expected_pay := none, current_location := none,
    preferred_shift_start := none, preferred_shift_end := none,
    referred_by := none, last_employer := none, created_at_utc := 0 }

/-- A job with no required therapies and no required languages. -/
def jobC6 : JobRecord :=
  { id := "j", employer_id := "e", role := "therapist", required_therapies := [],
    shift_start := "09:00", shift_end := "17:00", pay_min := 1, pay_max := 2,
    location_name := "HSR", location := { lat := 0, lon := 0 }, languages := [],
    sla_deadline_utc := 0, created_at_utc := 0 }

/-- A webhook delivery that already reached `processed`. -/
def deliveryC1 : WebhookDeliveryRecord :=
  { id := "w", key := "whatsapp:evt_1", channel := "whatsapp", event_id := "evt_1",
    status := .processed, attempts := 2, last_error := none, next_retry_utc := none,
    created_at_utc := 0, updated_at_utc := 0 }

/-- A store holding the processed delivery `deliveryC1`. -/
def stateC1 : State :=
  { nextId := 5, webhook_deliveries := [("whatsapp:evt_1", deliveryC1)] }

/-- The replayed webhook request for event `evt_1`. -/
def payloadC1 : WebhookEventRequest := { event_id := "evt_1" }

/-- Default-like webhook settings (three retries, 60s backoff). -/
def settingsC1 : Settings :=
  { webhook_max_retries := 3, webhook_retry_backoff_seconds := 60 }

/-- A webhook request whose payload triggers the simulated transient
error on every processing attempt. -/
def payloadC2 : WebhookEventRequest :=
  { event_id := "evt_retry_1",
    payload := [("simulate_transient_error", .boolean true)] }

/-- A store holding one application at stage `new`. -/
def applicationC3 : ApplicationRecord :=
  { id := "a", job_id := "j", candidate_id := "c", stage := .new,
    screening_score := none, created_at_utc := 0, updated_at_utc := 0 }

/-- The store fixture for the stage-transition witness. -/
def stateC3 : State := { nextId := 3, applications := [("a", applicationC3)] }

/-- The website-lead request used by the lead-contact witness. -/
def reqC8 : WebsiteLeadCreateRequest := { name := "Asha", phone := "9000000000" }

/-- One store call creating a website lead in the fresh store. -/
def opC8 : Op := Op.createWebsiteLead reqC8 30 "+911234567890" 0

/-- The store after that call; it holds one website lead keyed `mkId 1`. -/
def stateC8 : State := step (fun _ _ => 0) opC8 initState

/-- The website lead stored under `mkId 1` in `stateC8`. -/
def leadC8 : WebsiteLeadRecord := (stateC8.website_leads.get? (mkId 1)).get (by rfl)

/-! # Theorems -/

theorem mkId_injective {a b : Nat} (h : mkId a = mkId b) : a = b := by
  have h2 : (mkId a).data = (mkId b).data := by rw [h]
  have h3 : List.replicate (a + 1) 'c' = List.replicate (b + 1) 'c' := h2
  have h4 := congrArg List.length h3
  simp only [List.length_replicate] at h4
  omega

theorem AList.get?_set_self {κ α : Type} [DecidableEq κ] (m : AList κ α) (k : κ) (v : α) :
    (m.set k v).get? k = some v := by
  induction m with
  | nil => simp [AList.set, AList.get?]
  | cons p m ih =>
      by_cases hp : p.1 = k
      · simp [AList.set, hp, AList.get?]
      · simp [AList.set, hp, AList.get?, ih]

theorem AList.get?_set_ne {κ α : Type} [DecidableEq κ] (m : AList κ α) {k k' : κ} (v : α)
    (h : k' ≠ k) : (m.set k v).get? k' = m.get? k' := by
  induction m with
  | nil => simp [AList.set, AList.get?, Ne.symm h]
  | cons p m ih =>
      by_cases hp : p.1 = k
      · have hpk : p.1 ≠ k' := by rw [hp]; exact Ne.symm h
        simp [AList.set, hp, AList.get?, hpk, Ne.symm h]
      · by_cases hpk : p.1 = k'
        · simp [AList.set, hp, AList.get?, hpk, h]
        · simp [AList.set, hp, AList.get?, hpk, ih]

theorem AList.get?_eq_none_iff {κ α : Type} [DecidableEq κ] {m : AList κ α} {k : κ} :
    m.get? k = none ↔ k ∉ m.keys := by
  induction m with
  | nil => simp [AList.get?, AList.keys]
  | cons p m ih =>
      by_cases hp : p.1 = k
      · simp [AList.get?, hp, AList.keys]
      · simp [AList.get?, hp, AList.keys, ih, Ne.symm hp]

theorem AList.values_set_of_get?_none {κ α : Type} [DecidableEq κ] {m : AList κ α}
    {k : κ} (v : α) (h : m.get? k = none) : (m.set k v).values = m.values ++ [v] := by
  induction m with
  | nil => simp [AList.set, AList.values]
  | cons p m ih =>
      by_cases hp : p.1 = k
      · simp [AList.get?, hp] at h
      · simp only [AList.get?, hp, ite_false] at h
        have ih2 := ih h
        simp only [AList.values] at ih2
        simp [AList.set, hp, AList.values, ih2]

theorem AList.keys_set_of_get?_none {κ α : Type} [DecidableEq κ] {m : AList κ α}
    {k : κ} (v : α) (h : m.get? k = none) : (m.set k v).keys = m.keys ++ [k] := by
  induction m with
  | nil => simp [AList.set, AList.keys]
  | cons p m ih =>
      by_cases hp : p.1 = k
      · simp [AList.get?, hp] at h
      · simp only [AList.get?, hp, ite_false] at h
        have ih2 := ih h
        simp only [AList.keys] at ih2
        simp [AList.set, hp, AList.keys, ih2]

theorem AList.keys_set_of_get?_some {κ α : Type} [DecidableEq κ] {m : AList κ α}
    {k : κ} {a : α} (v : α) (h : m.get? k = some a) : (m.set k v).keys = m.keys := by
  induction m with
  | nil => simp [AList.get?] at h
  | cons p m ih =>
      by_cases hp : p.1 = k
      · simp [AList.set, hp, AList.keys]
      · simp only [AList.get?, hp, ite_false] at h
        have ih2 := ih h
        simp only [AList.keys] at ih2
        simp [AList.set, hp, AList.keys, ih2]

theorem AList.values_set_decomp {κ α : Type} [DecidableEq κ] {m : AList κ α}
    {k : κ} {a : α} (v : α) (h : m.get? k = some a) :
    ∃ l₁ l₂, AList.values m = l₁ ++ a :: l₂ ∧ (m.set k v).values = l₁ ++ v :: l₂ := by
  induction m with
  | nil => simp [AList.get?] at h
  | cons p m ih =>
      by_cases hp : p.1 = k
      · refine ⟨[], AList.values m, ?_, ?_⟩
        · simp only [AList.get?, hp, ite_true, Option.some.injEq] at h
          show p.2 :: AList.values m = [] ++ a :: AList.values m
          rw [h]
          rfl
        · simp only [AList.set, hp, ite_true]
          rfl
      · simp only [AList.get?, hp, ite_false] at h
        obtain ⟨l₁, l₂, h₁, h₂⟩ := ih h
        refine ⟨p.2 :: l₁, l₂, ?_, ?_⟩
        · show p.2 :: AList.values m = (p.2 :: l₁) ++ a :: l₂
          rw [h₁]
          rfl
        · simp only [AList.set, hp, ite_false]
          show p.2 :: AList.values (AList.set m k v) = (p.2 :: l₁) ++ v :: l₂
          rw [h₂]
          rfl

theorem AList.mem_of_get?_eq_some {κ α : Type} [DecidableEq κ] {m : AList κ α}
    {k : κ} {a : α} (h : m.get? k = some a) : (k, a) ∈ m := by
  induction m with
  | nil => simp [AList.get?] at h
  | cons p m ih =>
      by_cases hp : p.1 = k
      · simp only [AList.get?, hp, ite_true, Option.some.injEq] at h
        exact List.mem_cons.mpr (Or.inl (by cases p; simp_all))
      · simp only [AList.get?, hp, ite_false] at h
        exact List.mem_cons_of_mem _ (ih h)

theorem AList.get?_of_mem_nodup {κ α : Type} [DecidableEq κ] {m : AList κ α}
    {k : κ} {a : α} (hnd : m.keys.Nodup) (h : (k, a) ∈ m) : m.get? k = some a := by
  induction m with
  | nil => simp at h
  | cons p m ih =>
      simp only [AList.keys, List.map_cons, List.nodup_cons] at hnd
      rcases List.mem_cons.mp h with h1 | h1
      · rw [← h1]
        simp [AList.get?]
      · by_cases hp : p.1 = k
        · exfalso
          apply hnd.1
          rw [hp]
          exact List.mem_map.mpr ⟨(k, a), h1, rfl⟩
        · simpa [AList.get?, hp] using ih hnd.2 h1

theorem AList.mem_values_of_get? {κ α : Type} [DecidableEq κ] {m : AList κ α}
    {k : κ} {a : α} (h : m.get? k = some a) : a ∈ m.values :=
  List.mem_map.mpr ⟨(k, a), AList.mem_of_get?_eq_some h, rfl⟩

theorem AList.exists_key_of_mem_values {κ α : Type} {m : AList κ α} {a : α}
    (h : a ∈ m.values) : ∃ p ∈ m, p.2 = a :=
  List.mem_map.mp h

/-! ## Dedup matcher: C10 and C5 -/

theorem normalize_eq_of_pyStrip_eq {a b : String} (h : pyStrip a = pyStrip b) :
    normalize (some a) = normalize (some b) := by
  show String.mk (squeezeWs (pyLower (pyStrip a)).data)
    = String.mk (squeezeWs (pyLower (pyStrip b)).data)
  rw [h]

/-- **C10**: when the normalized phones differ and either the existing or
the incoming name normalizes to the empty string, `is_probable_duplicate`
returns `false` — for every similarity function, in particular one that
rates two empty strings 1.0 ≥ 0.90. -/
theorem C10_dedup_empty_name_never_duplicate (sim : String → String → ℚ)
    (existing : CandidateRecord) (phone name : String) (last_employer : Option String)
    (hphone : normalize (some existing.phone) ≠ normalize (some phone))
    (hname : normalize (some existing.name) = "" ∨ normalize (some name) = "") :
    is_probable_duplicate sim existing phone name last_employer = false := by
  unfold is_probable_duplicate
  rw [if_neg hphone, if_pos hname]

/-- **C10 witness**: a candidate with an empty name and phone `"111"`
against an incoming empty name and different phone `"222"`, under a
similarity function that rates every pair (including two empty strings)
at 1. -/
theorem C10_witness :
    is_probable_duplicate (fun _ _ => 1)
      { id := "c", name := "", phone := "111", source_channel := .whatsapp,
        languages := [], therapy_experience := [], experience_years := 0,
        certifications := [], expected_pay := none, current_location := none,
        preferred_shift_start := none, preferred_shift_end := none,
        referred_by := none, last_employer := none, created_at_utc := 0 }
      "222" "" none = false :=
  C10_dedup_empty_name_never_duplicate (fun _ _ => 1) _ "222" "" none
    (by decide) (by left; decide)

/-- **C5**: whenever some stored candidate's stripped phone equals the
stripped phone of the ingest request, `ingest_candidate` reports a
duplicate, leaves the store unchanged, and returns the first candidate (in
insertion order) accepted by the dedup matcher. -/
theorem C5_phone_dedup (sim : String → String → ℚ) (s : State)
    (request : CandidateIngestRequest) (now : ℚ)
    (h : ∃ c ∈ AList.values s.candidates, pyStrip c.phone = pyStrip request.phone) :
    (ingest_candidate sim s request now).1.2 = true
    ∧ (ingest_candidate sim s request now).2 = s
    ∧ (AList.values s.candidates).find? (fun candidate =>
        is_probable_duplicate sim candidate request.phone request.name
          request.last_employer)
      = some (ingest_candidate sim s request now).1.1 := by
  obtain ⟨c, hcmem, hcp⟩ := h
  have hc : is_probable_duplicate sim c request.phone request.name
      request.last_employer = true := by
    unfold is_probable_duplicate
    rw [if_pos (normalize_eq_of_pyStrip_eq hcp)]
  have hsome : ((AList.values s.candidates).find? (fun candidate =>
      is_probable_duplicate sim candidate request.phone request.name
        request.last_employer)).isSome := by
    rw [List.find?_isSome]
    exact ⟨c, hcmem, hc⟩
  obtain ⟨c', hc'⟩ := Option.isSome_iff_exists.mp hsome
  unfold ingest_candidate
  rw [hc']
  exact ⟨rfl, rfl, rfl⟩

/-- **C5 witness**: ingesting phone `"9000011111"` under the name
`"Kiran Manjunath"` when a candidate `"Kiran M"` with the same phone is
stored returns that candidate as a duplicate and does not change the
store. -/
theorem C5_witness :
    (ingest_candidate (fun _ _ => 0)
        { nextId := 1,
          candidates := [("c",
            { id := "c", name := "Kiran M", phone := "9000011111",
              source_channel := .whatsapp, languages := [],
              therapy_experience := [], experience_years := 0,
              certifications := [], expected_pay := none,
              current_location := none, preferred_shift_start := none,
              preferred_shift_end := none, referred_by := none,
              last_employer := none, created_at_utc := 0 })] }
        { name := "Kiran Manjunath", phone := " 9000011111 ",
          source_channel := .whatsapp } 7).1.2 = true :=
  (C5_phone_dedup (fun _ _ => 0) _ _ 7
    ⟨_, by constructor, by decide⟩).1

/-! ## Scoring engine: C6 -/

theorem therapy_score_of_le_one (candidate : CandidateRecord) (job : JobRecord) :
    therapy_score_of candidate job ≤ 1 := by
  unfold therapy_score_of
  set required := (job.required_therapies.map (fun v => pyStrip (pyLower v))).toFinset
    with hreq
  by_cases h : required = ∅
  · rw [if_pos h]
    norm_num
  · rw [if_neg h]
    have hcard : 0 < required.card :=
      Finset.card_pos.mpr (Finset.nonempty_iff_ne_empty.mpr h)
    rw [div_le_one (by exact_mod_cast hcard)]
    exact_mod_cast Finset.card_le_card Finset.inter_subset_left

/-- **C6**: `screening_score` returns
`overall = round3(0.35·therapy + 0.25·language + 0.20·commute + 0.20·compliance)`
with `compliance = 1.0` iff the candidate has a certification or at least
two years of experience (else `0.3`), `commute = 0.5` when the candidate
has no location, and `hard_pass` exactly when the therapy score equals
1.0, the language score is positive or no languages are required, and the
compliance condition holds — for every distance function. -/
theorem C6_screening_score (hav : Coordinates → Coordinates → ℚ)
    (candidate : CandidateRecord) (job : JobRecord) :
    (screening_score hav candidate job).2.1
      = round3 (0.35 * therapy_score_of candidate job
          + 0.25 * language_score_of candidate job
          + 0.20 * compute_commute_score hav candidate job
          + 0.20 * (if cert_or_exp_ok candidate then (1.0 : ℚ) else 0.3))
    ∧ (candidate.current_location = none →
        compute_commute_score hav candidate job = 0.5)
    ∧ (cert_or_exp_ok candidate = true
        ↔ (candidate.certifications ≠ [] ∨ candidate.experience_years ≥ 2))
    ∧ ((screening_score hav candidate job).1 = true
        ↔ (therapy_score_of candidate job = 1
            ∧ (language_score_of candidate job > 0 ∨ job.languages.toFinset = ∅)
            ∧ (candidate.certifications ≠ [] ∨ candidate.experience_years ≥ 2))) := by
  have e1 : (1.0 : ℚ) = 1 := by norm_num
  have e0 : (0.0 : ℚ) = 0 := by norm_num
  refine ⟨rfl, ?_, ?_, ?_⟩
  · intro h
    unfold compute_commute_score
    rw [h]
  · unfold cert_or_exp_ok
    simp
  · constructor
    · intro h
      have h' : therapy_score_of candidate job ≥ 1.0
          ∧ (language_score_of candidate job > 0.0 ∨ job.languages.toFinset = ∅)
          ∧ cert_or_exp_ok candidate = true := of_decide_eq_true h
      rw [e1, e0] at h'
      obtain ⟨h1, h2, h3⟩ := h'
      refine ⟨le_antisymm (therapy_score_of_le_one candidate job) h1, h2, ?_⟩
      exact of_decide_eq_true h3
    · rintro ⟨h1, h2, h3⟩
      have h' : therapy_score_of candidate job ≥ 1.0
          ∧ (language_score_of candidate job > 0.0 ∨ job.languages.toFinset = ∅)
          ∧ cert_or_exp_ok candidate = true := by
        rw [e1, e0]
        exact ⟨le_of_eq h1.symm, h2, decide_eq_true h3⟩
      exact decide_eq_true h'

/-! ## Workflow rules: C3 -/

/-- **C3**: for an application found in the store, a same-stage transition
(also from terminal `joined`/`dropped`) is a no-op success returning the
application with the whole store unchanged and no audit event; a
different, disallowed target fails with a Conflict whose message names
source and target stage and the store state is unchanged; an allowed
transition succeeds and appends exactly one audit event carrying the
previous stage, the new stage and the caller's reason. -/
theorem C3_transition_contract (sim : String → String → ℚ) (s : State)
    (application_id : Id) (to_stage : StageStatus) (reason : String) (now : ℚ)
    (application : ApplicationRecord)
    (h : s.applications.get? application_id = some application) :
    (application.stage = to_stage →
      transition_application s application_id to_stage reason now
        = .ok (application, s))
    ∧ (application.stage ≠ to_stage → to_stage ∉ ALLOWED_TRANSITIONS application.stage →
      transition_application s application_id to_stage reason now
        = .error (.conflict ("invalid transition " ++ application.stage.value ++ " -> "
            ++ to_stage.value))
      ∧ step sim (.transitionApplication application_id to_stage reason now) s = s)
    ∧ (application.stage ≠ to_stage → to_stage ∈ ALLOWED_TRANSITIONS application.stage →
      transition_application s application_id to_stage reason now
        = .ok ({ application with stage := to_stage, updated_at_utc := now },
            { s with
                nextId := s.nextId + 1
                applications := s.applications.set application.id
                  { application with stage := to_stage, updated_at_utc := now }
                audit_events := s.audit_events ++ [{
                  id := mkId s.nextId
                  application_id := application.id
                  from_stage := some application.stage
                  to_stage := to_stage
                  reason := reason
                  created_at_utc := now }] })) := by
  refine ⟨?_, ?_, ?_⟩
  · intro heq
    simp only [transition_application, h]
    rw [if_pos heq]
  · intro hne hnm
    have herr : transition_application s application_id to_stage reason now
        = .error (.conflict ("invalid transition " ++ application.stage.value ++ " -> "
            ++ to_stage.value)) := by
      simp only [transition_application, h]
      rw [if_neg hne, if_pos hnm]
    refine ⟨herr, ?_⟩
    simp only [step, herr]
  · intro hne hmem
    simp only [transition_application, h]
    rw [if_neg hne, if_neg (not_not_intro hmem)]
    rfl

/-- **C3 witness**: transitioning a fresh application straight from `new`
to `offered` raises a Conflict naming both stages and leaves the store
unchanged; transitioning `new` to `new` is a no-op success. -/
theorem C3_witness :
    transition_application stateC3 "a" .offered "jump" 5
      = .error (.conflict ("invalid transition " ++ StageStatus.value .new ++ " -> "
          ++ StageStatus.value .offered))
    ∧ step (fun _ _ => 0) (.transitionApplication "a" .offered "jump" 5) stateC3 = stateC3
    ∧ transition_application stateC3 "a" .new "noop" 5 = .ok (applicationC3, stateC3) := by
  refine ⟨?_, ?_, ?_⟩
  · exact ((C3_transition_contract (fun _ _ => 0) stateC3 "a" .offered "jump" 5
      applicationC3 rfl).2.1 (by decide) (by decide)).1
  · exact ((C3_transition_contract (fun _ _ => 0) stateC3 "a" .offered "jump" 5
      applicationC3 rfl).2.1 (by decide) (by decide)).2
  · exact (C3_transition_contract (fun _ _ => 0) stateC3 "a" .new "noop" 5
      applicationC3 rfl).1 rfl

/-- **C6 witness**: a candidate with no stored location gets commute score
0.5 against any job and distance function. -/
theorem C6_witness :
    compute_commute_score (fun _ _ => 0) candidateC6 jobC6 = 0.5 :=
  (C6_screening_score (fun _ _ => 0) candidateC6 jobC6).2.1 rfl

/-! ## Webhook idempotency protocol: C1 and C2 -/

theorem ensure_webhook_delivery_found {s : State} {channel event_id : String} {now : ℚ}
    {r : WebhookDeliveryRecord}
    (h : s.webhook_deliveries.get? (webhook_key channel event_id) = some r) :
    ensure_webhook_delivery s channel event_id now = (r, s) := by
  simp only [ensure_webhook_delivery, h]

theorem ensure_webhook_delivery_fresh {s : State} {channel event_id : String} {now : ℚ}
    (h : s.webhook_deliveries.get? (webhook_key channel event_id) = none) :
    ensure_webhook_delivery s channel event_id now
      = ({ id := mkId s.nextId
           key := webhook_key channel event_id
           channel := channel
           event_id := event_id
           status := .received
           attempts := 0
           last_error := none
           next_retry_utc := none
           created_at_utc := now
           updated_at_utc := now },
         { s with
             nextId := s.nextId + 1
             webhook_deliveries := s.webhook_deliveries.set (webhook_key channel event_id)
               { id := mkId s.nextId
                 key := webhook_key channel event_id
                 channel := channel
                 event_id := event_id
                 status := .received
                 attempts := 0
                 last_error := none
                 next_retry_utc := none
                 created_at_utc := now
                 updated_at_utc := now } }) := by
  simp only [ensure_webhook_delivery, h]

/-- **C1**: if the stored delivery for (channel, event id) is `processed`,
replaying the identical webhook request returns status `"duplicate"` with
the recorded attempt count and returns the store completely unchanged:
no candidate or application is created and the delivery record keeps its
attempts, status and timestamps. -/
theorem C1_webhook_replay_idempotent (sim : String → String → ℚ) (settings : Settings)
    (s : State) (channel : String) (payload : WebhookEventRequest) (now : ℚ)
    (r : WebhookDeliveryRecord)
    (hget : s.webhook_deliveries.get? (webhook_key channel payload.event_id) = some r)
    (hst : r.status = .processed) :
    channel_webhook sim settings s channel payload now
      = ({ status := "duplicate", attempts := some r.attempts,
           next_retry_utc := none, detail := none }, s) := by
  simp [channel_webhook, ensure_webhook_delivery_found hget, hst,
    WebhookProcessingStatus.value]

/-- **C1 witness**: replaying event `evt_1` whose delivery is `processed`
with 2 attempts returns `"duplicate"`/2 and the untouched store. -/
theorem C1_witness :
    channel_webhook (fun _ _ => 0) settingsC1 stateC1 "whatsapp" payloadC1 9
      = ({ status := "duplicate", attempts := some 2,
           next_retry_utc := none, detail := none }, stateC1) :=
  C1_webhook_replay_idempotent (fun _ _ => 0) settingsC1 stateC1 "whatsapp" payloadC1 9
    deliveryC1 rfl rfl

theorem record_webhook_attempt_found {s : State} {channel event_id : String}
    {rec : WebhookDeliveryRecord}
    (hget : s.webhook_deliveries.get? (webhook_key channel event_id) = some rec)
    (success : Bool) (error : Option String) (transient : Bool) (max_retries : Nat)
    (backoff_seconds now : ℚ) :
    (record_webhook_attempt s channel event_id success error transient max_retries
        backoff_seconds now).1.attempts = rec.attempts + 1
    ∧ (record_webhook_attempt s channel event_id success error transient max_retries
        backoff_seconds now).2.webhook_deliveries.get? (webhook_key channel event_id)
      = some (record_webhook_attempt s channel event_id success error transient
          max_retries backoff_seconds now).1
    ∧ (success = true →
        (record_webhook_attempt s channel event_id success error transient max_retries
          backoff_seconds now).1.status = .processed
        ∧ (record_webhook_attempt s channel event_id success error transient max_retries
            backoff_seconds now).1.last_error = none
        ∧ (record_webhook_attempt s channel event_id success error transient max_retries
            backoff_seconds now).1.next_retry_utc = none)
    ∧ (success = false → transient = true → rec.attempts + 1 < max_retries →
        (record_webhook_attempt s channel event_id success error transient max_retries
          backoff_seconds now).1.status = .retry_pending
        ∧ (record_webhook_attempt s channel event_id success error transient max_retries
            backoff_seconds now).1.next_retry_utc
          = some (now + backoff_seconds * ((rec.attempts + 1 : Nat) : ℚ)))
    ∧ (success = false → (transient = false ∨ max_retries ≤ rec.attempts + 1) →
        (record_webhook_attempt s channel event_id success error transient max_retries
          backoff_seconds now).1.status = .failed
        ∧ (record_webhook_attempt s channel event_id success error transient max_retries
            backoff_seconds now).1.next_retry_utc = none) := by
  refine ⟨?_, ?_, ?_, ?_, ?_⟩
  · simp only [record_webhook_attempt, hget]
  · simp only [record_webhook_attempt, hget]
    exact AList.get?_set_self _ _ _
  · intro hs
    simp only [record_webhook_attempt, hget, hs]
    exact ⟨rfl, rfl, rfl⟩
  · intro hs ht hlt
    simp only [record_webhook_attempt, hget, hs, ht]
    simp [hlt]
  · intro hs hor
    simp only [record_webhook_attempt, hget, hs]
    rcases hor with ht | hge
    · simp [ht]
    · have : ¬ (rec.attempts + 1 < max_retries) := by omega
      simp [this]

theorem record_webhook_attempt_fresh {s : State} {channel event_id : String}
    (hget : s.webhook_deliveries.get? (webhook_key channel event_id) = none)
    (success : Bool) (error : Option String) (transient : Bool) (max_retries : Nat)
    (backoff_seconds now : ℚ) :
    (record_webhook_attempt s channel event_id success error transient max_retries
        backoff_seconds now).1.attempts = 1
    ∧ (record_webhook_attempt s channel event_id success error transient max_retries
        backoff_seconds now).2.webhook_deliveries.get? (webhook_key channel event_id)
      = some (record_webhook_attempt s channel event_id success error transient
          max_retries backoff_seconds now).1
    ∧ (success = true →
        (record_webhook_attempt s channel event_id success error transient max_retries
          backoff_seconds now).1.status = .processed)
    ∧ (success = false → transient = true → 1 < max_retries →
        (record_webhook_attempt s channel event_id success error transient max_retries
          backoff_seconds now).1.status = .retry_pending)
    ∧ (success = false → (transient = false ∨ max_retries ≤ 1) →
        (record_webhook_attempt s channel event_id success error transient max_retries
          backoff_seconds now).1.status = .failed) := by
  refine ⟨?_, ?_, ?_, ?_, ?_⟩
  · simp only [record_webhook_attempt, hget]
  · simp only [record_webhook_attempt, hget]
    exact AList.get?_set_self _ _ _
  · intro hs
    simp [record_webhook_attempt, hget, hs]
  · intro hs ht hlt
    simp only [record_webhook_attempt, hget, hs, ht]
    simp [hlt]
  · intro hs hor
    simp only [record_webhook_attempt, hget, hs]
    rcases hor with ht | hge
    · simp [ht]
    · have : ¬ (0 + 1 < max_retries) := by omega
      simp [this]

theorem channel_webhook_failed_noop (sim : String → String → ℚ) (settings : Settings)
    (s : State) (channel : String) (payload : WebhookEventRequest) (now : ℚ)
    (r : WebhookDeliveryRecord)
    (hget : s.webhook_deliveries.get? (webhook_key channel payload.event_id) = some r)
    (hst : r.status = .failed) :
    channel_webhook sim settings s channel payload now
      = ({ status := "failed", attempts := some r.attempts, next_retry_utc := none,
           detail := some "max retries reached; manual intervention required" }, s) := by
  simp [channel_webhook, ensure_webhook_delivery_found hget, hst,
    WebhookProcessingStatus.value]

theorem ensure_webhook_delivery_get?_self (s : State) (channel event_id : String)
    (now : ℚ) :
    (ensure_webhook_delivery s channel event_id now).2.webhook_deliveries.get?
        (webhook_key channel event_id)
      = some (ensure_webhook_delivery s channel event_id now).1 := by
  unfold ensure_webhook_delivery
  cases hget : s.webhook_deliveries.get? (webhook_key channel event_id) with
  | some r => simp [hget]
  | none =>
      simp only [hget]
      exact AList.get?_set_self _ _ _

theorem ensure_webhook_delivery_fresh_fields {s : State} {channel event_id : String}
    {now : ℚ}
    (h : s.webhook_deliveries.get? (webhook_key channel event_id) = none) :
    (ensure_webhook_delivery s channel event_id now).1.status = .received
    ∧ (ensure_webhook_delivery s channel event_id now).1.attempts = 0 := by
  rw [ensure_webhook_delivery_fresh h]
  exact ⟨rfl, rfl⟩

theorem channel_webhook_transient_eq (sim : String → String → ℚ) (settings : Settings)
    (s : State) (channel : String) (payload : WebhookEventRequest) (now : ℚ)
    (hhook : (dictGet payload.payload "simulate_transient_error").truthy = true)
    (hnp : (ensure_webhook_delivery s channel payload.event_id now).1.status.value
      ≠ "processed")
    (hnf : (ensure_webhook_delivery s channel payload.event_id now).1.status.value
      ≠ "failed") :
    (channel_webhook sim settings s channel payload now).2
      = (record_webhook_attempt (ensure_webhook_delivery s channel payload.event_id now).2
          channel payload.event_id false (some "provider timeout, retry needed") true
          settings.webhook_max_retries settings.webhook_retry_backoff_seconds now).2 := by
  simp only [channel_webhook, process_channel_event, hhook, if_neg hnp, if_neg hnf,
    ite_true]

theorem channel_webhook_transient_step (sim : String → String → ℚ) (settings : Settings)
    (s : State) (channel : String) (payload : WebhookEventRequest) (now : ℚ) (prev : Nat)
    (hhook : (dictGet payload.payload "simulate_transient_error").truthy = true)
    (hprev : (s.webhook_deliveries.get? (webhook_key channel payload.event_id) = none
        ∧ prev = 0)
      ∨ (∃ r, s.webhook_deliveries.get? (webhook_key channel payload.event_id) = some r
          ∧ (r.status = .received ∨ r.status = .retry_pending) ∧ r.attempts = prev)) :
    ∃ r', (channel_webhook sim settings s channel payload now).2.webhook_deliveries.get?
        (webhook_key channel payload.event_id) = some r'
      ∧ r'.attempts = prev + 1
      ∧ (prev + 1 < settings.webhook_max_retries → r'.status = .retry_pending)
      ∧ (settings.webhook_max_retries ≤ prev + 1 → r'.status = .failed) := by
  have hstat : (ensure_webhook_delivery s channel payload.event_id now).1.status
        = .received
      ∨ (ensure_webhook_delivery s channel payload.event_id now).1.status
        = .retry_pending := by
    rcases hprev with ⟨hnone, _⟩ | ⟨r, hsome, hstval, _⟩
    · exact Or.inl (ensure_webhook_delivery_fresh_fields hnone).1
    · rw [ensure_webhook_delivery_found hsome]
      exact hstval
  have hatt : (ensure_webhook_delivery s channel payload.event_id now).1.attempts
      = prev := by
    rcases hprev with ⟨hnone, hp⟩ | ⟨r, hsome, _, hatt⟩
    · rw [(ensure_webhook_delivery_fresh_fields hnone).2, hp]
    · rw [ensure_webhook_delivery_found hsome, hatt]
  have hnp : (ensure_webhook_delivery s channel payload.event_id now).1.status.value
      ≠ "processed" := by
    rcases hstat with h | h <;> rw [h] <;> decide
  have hnf : (ensure_webhook_delivery s channel payload.event_id now).1.status.value
      ≠ "failed" := by
    rcases hstat with h | h <;> rw [h] <;> decide
  have heq := channel_webhook_transient_eq sim settings s channel payload now hhook hnp hnf
  have hrec := record_webhook_attempt_found
    (ensure_webhook_delivery_get?_self s channel payload.event_id now) false
    (some "provider timeout, retry needed") true settings.webhook_max_retries
    settings.webhook_retry_backoff_seconds now
  rw [hatt] at hrec
  refine ⟨_, ?_, hrec.1, ?_, ?_⟩
  · rw [heq]
    exact hrec.2.1
  · intro hlt
    exact (hrec.2.2.2.1 rfl rfl hlt).1
  · intro hge
    exact (hrec.2.2.2.2 rfl (Or.inr hge)).1

theorem webhook_replay_transient (sim : String → String → ℚ) (settings : Settings)
    (s : State) (channel : String) (payload : WebhookEventRequest) (now : ℚ)
    (hhook : (dictGet payload.payload "simulate_transient_error").truthy = true)
    (hfresh : s.webhook_deliveries.get? (webhook_key channel payload.event_id) = none)
    (hN : 1 ≤ settings.webhook_max_retries) :
    ∀ k, 1 ≤ k →
      ∃ r, (webhook_replay sim settings s channel payload now k).webhook_deliveries.get?
          (webhook_key channel payload.event_id) = some r
        ∧ ((k < settings.webhook_max_retries ∧ r.status = .retry_pending ∧ r.attempts = k)
          ∨ (settings.webhook_max_retries ≤ k ∧ r.status = .failed
              ∧ r.attempts = settings.webhook_max_retries)) := by
  intro k
  induction k with
  | zero => omega
  | succ k ih =>
      intro _
      by_cases hk : 1 ≤ k
      · obtain ⟨r, hget, hcase⟩ := ih hk
        rcases hcase with ⟨hlt, hst, hat⟩ | ⟨hge, hst, hat⟩
        · obtain ⟨r', hget', hat', hpend, hfail⟩ :=
            channel_webhook_transient_step sim settings _ channel payload now k hhook
              (Or.inr ⟨r, hget, Or.inr hst, hat⟩)
          refine ⟨r', hget', ?_⟩
          by_cases hlt' : k + 1 < settings.webhook_max_retries
          · exact Or.inl ⟨hlt', hpend hlt', by rw [hat']⟩
          · have hge' : settings.webhook_max_retries ≤ k + 1 := by omega
            have heq : settings.webhook_max_retries = k + 1 := by omega
            exact Or.inr ⟨hge', hfail hge', by rw [hat', heq]⟩
        · have hnoop := channel_webhook_failed_noop sim settings
            (webhook_replay sim settings s channel payload now k) channel payload now r
            hget hst
          refine ⟨r, ?_, Or.inr ⟨by omega, hst, hat⟩⟩
          show (channel_webhook sim settings
              (webhook_replay sim settings s channel payload now k) channel payload
              now).2.webhook_deliveries.get? (webhook_key channel payload.event_id) = some r
          rw [hnoop]
          exact hget
      · have hk0 : k = 0 := by omega
        subst hk0
        obtain ⟨r', hget', hat', hpend, hfail⟩ :=
          channel_webhook_transient_step sim settings s channel payload now 0 hhook
            (Or.inl ⟨hfresh, rfl⟩)
        refine ⟨r', hget', ?_⟩
        by_cases hlt' : 1 < settings.webhook_max_retries
        · exact Or.inl ⟨by omega, hpend (by omega), by omega⟩
        · have heq : settings.webhook_max_retries = 1 := by omega
          exact Or.inr ⟨by omega, hfail (by omega), by omega⟩

/-- **C2**: `record_webhook_attempt` increments the attempt count by
exactly one; success yields `processed` with error and next-retry cleared;
a transient failure with the new attempt count still below `max_retries`
yields `retry_pending` with `next_retry = now + backoff_seconds ×
attempts`; otherwise the delivery becomes `failed` with next-retry
cleared.  Consequently a webhook event that fails transiently on every
attempt under `maxRetries = N ≥ 1` is `retry_pending` with `attempts = k`
after the k-th call for k < N, and from the N-th call on it is `failed`
with `attempts = N` — the handler's early return on `failed` keeps the
attempt count at N forever after. -/
theorem C2_retry_bound_and_backoff :
    (∀ (s : State) (channel event_id : String) (rec : WebhookDeliveryRecord)
        (success : Bool) (error : Option String) (transient : Bool) (max_retries : Nat)
        (backoff_seconds now : ℚ),
      s.webhook_deliveries.get? (webhook_key channel event_id) = some rec →
      (record_webhook_attempt s channel event_id success error transient max_retries
          backoff_seconds now).1.attempts = rec.attempts + 1
      ∧ (success = true →
          (record_webhook_attempt s channel event_id success error transient max_retries
            backoff_seconds now).1.status = .processed
          ∧ (record_webhook_attempt s channel event_id success error transient max_retries
              backoff_seconds now).1.last_error = none
          ∧ (record_webhook_attempt s channel event_id success error transient max_retries
              backoff_seconds now).1.next_retry_utc = none)
      ∧ (success = false → transient = true → rec.attempts + 1 < max_retries →
          (record_webhook_attempt s channel event_id success error transient max_retries
            backoff_seconds now).1.status = .retry_pending
          ∧ (record_webhook_attempt s channel event_id success error transient max_retries
              backoff_seconds now).1.next_retry_utc
            = some (now + backoff_seconds * ((rec.attempts + 1 : Nat) : ℚ)))
      ∧ (success = false → (transient = false ∨ max_retries ≤ rec.attempts + 1) →
          (record_webhook_attempt s channel event_id success error transient max_retries
            backoff_seconds now).1.status = .failed
          ∧ (record_webhook_attempt s channel event_id success error transient max_retries
              backoff_seconds now).1.next_retry_utc = none))
    ∧ (∀ (sim : String → String → ℚ) (settings : Settings) (s : State) (channel : String)
        (payload : WebhookEventRequest) (now : ℚ),
      (dictGet payload.payload "simulate_transient_error").truthy = true →
      s.webhook_deliveries.get? (webhook_key channel payload.event_id) = none →
      1 ≤ settings.webhook_max_retries →
      ∀ k, 1 ≤ k →
        ∃ r, (webhook_replay sim settings s channel payload now k).webhook_deliveries.get?
            (webhook_key channel payload.event_id) = some r
          ∧ ((k < settings.webhook_max_retries ∧ r.status = .retry_pending
              ∧ r.attempts = k)
            ∨ (settings.webhook_max_retries ≤ k ∧ r.status = .failed
                ∧ r.attempts = settings.webhook_max_retries))) := by
  constructor
  · intro s channel event_id rec success error transient max_retries backoff_seconds now hget
    have h := record_webhook_attempt_found hget success error transient max_retries
      backoff_seconds now
    exact ⟨h.1, h.2.2.1, h.2.2.2.1, h.2.2.2.2⟩
  · intro sim settings s channel payload now hhook hfresh hN
    exact webhook_replay_transient sim settings s channel payload now hhook hfresh hN

/-- **C2 witness**: recording a successful attempt on the stored delivery
(2 prior attempts) yields 3 attempts and status `processed`; and with
`maxRetries = 3` a transiently failing event replayed three times from a
fresh store ends `failed` with exactly 3 attempts. -/
theorem C2_witness :
    ((record_webhook_attempt stateC1 "whatsapp" "evt_1" true none false 3 60 9).1.attempts
      = deliveryC1.attempts + 1
    ∧ (record_webhook_attempt stateC1 "whatsapp" "evt_1" true none false 3 60 9).1.status
      = .processed)
    ∧ (∃ r, (webhook_replay (fun _ _ => 0) settingsC1 initState "whatsapp" payloadC2
          0 3).webhook_deliveries.get? (webhook_key "whatsapp" payloadC2.event_id) = some r
        ∧ ((3 < settingsC1.webhook_max_retries ∧ r.status = .retry_pending
            ∧ r.attempts = 3)
          ∨ (settingsC1.webhook_max_retries ≤ 3 ∧ r.status = .failed
              ∧ r.attempts = settingsC1.webhook_max_retries))) := by
  constructor
  · have h := C2_retry_bound_and_backoff.1 stateC1 "whatsapp" "evt_1" deliveryC1 true none
      false 3 60 9 rfl
    exact ⟨h.1, (h.2.1 rfl).1⟩
  · exact C2_retry_bound_and_backoff.2 (fun _ _ => 0) settingsC1 initState "whatsapp"
      payloadC2 0 (by decide) rfl (by decide) 3 (by decide)

/-! ## Channel event processor: C7 -/

theorem validate_candidate_ingest_job_id {name phone : String} {sc : SourceChannel}
    {langs : List Language} {t e c ep cl pss pse rb le jv : PVal}
    {req : CandidateIngestRequest}
    (h : validate_candidate_ingest name phone sc langs t e c ep cl pss pse rb le jv
      = some req) : vOptStr jv = some req.job_id := by
  unfold validate_candidate_ingest at h
  split at h
  · split at h
    · rename_i heq
      cases h
      exact heq
    · cases h
  · cases h

theorem build_ingest_request_error_permanent {payload : WebhookEventRequest}
    {sc : SourceChannel} {fb : Option String} {e : ChannelError}
    (h : build_ingest_request payload sc fb = .error e) : ∃ m, e = .permanent m := by
  unfold build_ingest_request at h
  split at h
  · split at h
    · exact ⟨_, (Except.error.inj h).symm⟩
    · split at h
      · split at h
        · exact ⟨_, (Except.error.inj h).symm⟩
        · split at h
          · cases h
          · exact ⟨_, (Except.error.inj h).symm⟩
      · exact ⟨_, (Except.error.inj h).symm⟩
  · exact ⟨_, (Except.error.inj h).symm⟩

theorem build_ingest_request_ok_job_id {payload : WebhookEventRequest}
    {sc : SourceChannel} {fb : Option String} {req : CandidateIngestRequest}
    (h : build_ingest_request payload sc fb = .ok req) :
    vOptStr (dictGet payload.payload "job_id") = some req.job_id := by
  unfold build_ingest_request at h
  split at h
  · split at h
    · cases h
    · split at h
      · split at h
        · cases h
        · split at h
          · rename_i hval
            cases h
            exact validate_candidate_ingest_job_id hval
          · cases h
      · cases h
  · cases h

theorem build_ingest_request_missing_name {payload : WebhookEventRequest}
    {sc : SourceChannel} {fb : Option String}
    (h : ¬ hasNonEmptyStr (extracted_name payload)) :
    build_ingest_request payload sc fb = .error (.permanent "candidate lead missing name") := by
  unfold build_ingest_request
  cases hv : extracted_name payload with
  | str name =>
      have hs : pyStrip name = "" := by
        by_contra hne
        exact h ⟨name, hv, hne⟩
      simp [hv, hs]
  | null => simp [hv]
  | boolean b => simp [hv]
  | num q => simp [hv]
  | arr items => simp [hv]
  | obj entries => simp [hv]

theorem build_ingest_request_missing_phone {payload : WebhookEventRequest}
    {sc : SourceChannel} {fb : Option String} {name : String}
    (hn : extracted_name payload = .str name) (hns : pyStrip name ≠ "")
    (h : ¬ hasNonEmptyStr (extracted_phone payload fb)) :
    build_ingest_request payload sc fb
      = .error (.permanent "candidate lead missing phone") := by
  unfold build_ingest_request
  cases hv : extracted_phone payload fb with
  | str phone =>
      have hs : pyStrip phone = "" := by
        by_contra hne
        exact h ⟨phone, hv, hne⟩
      simp [hn, hv, hs, hns]
  | null => simp [hn, hv, hns]
  | boolean b => simp [hn, hv, hns]
  | num q => simp [hn, hv, hns]
  | arr items => simp [hn, hv, hns]
  | obj entries => simp [hn, hv, hns]

/-- **C7**: with the simulated-error hooks absent, an event type whose
normalized value is not `candidate_lead`/`referral_lead`/`call_lead` is
ignored as a success with the store untouched; a recognized event type
lacking a non-empty string name or phone raises a `PermanentWebhookError`
with the store untouched; a recognized event type whose payload carries a
non-empty `job_id` string not present in the store's jobs also raises a
`PermanentWebhookError` with the store untouched. -/
theorem C7_channel_event_outcomes (sim : String → String → ℚ) (s : State)
    (channel : String) (payload : WebhookEventRequest) (now : ℚ)
    (hT : (dictGet payload.payload "simulate_transient_error").truthy = false)
    (hP : (dictGet payload.payload "simulate_permanent_error").truthy = false) :
    (pyLower (pyStrip (payload.event_type.getD ""))
        ∉ ["candidate_lead", "referral_lead", "call_lead"] →
      process_channel_event sim s channel payload now = .ok ("ignored_event_type", s))
    ∧ (pyLower (pyStrip (payload.event_type.getD ""))
        ∈ ["candidate_lead", "referral_lead", "call_lead"] →
      (¬ hasNonEmptyStr (extracted_name payload)
        ∨ ¬ hasNonEmptyStr (extracted_phone payload payload.phone)) →
      ∃ msg, process_channel_event sim s channel payload now
        = .error (.permanent msg, s))
    ∧ (∀ jid, pyLower (pyStrip (payload.event_type.getD ""))
        ∈ ["candidate_lead", "referral_lead", "call_lead"] →
      dictGet payload.payload "job_id" = .str jid → jid ≠ "" →
      s.jobs.get? jid = none →
      ∃ msg, process_channel_event sim s channel payload now
        = .error (.permanent msg, s)) := by
  refine ⟨?_, ?_, ?_⟩
  · intro hnotin
    simp only [process_channel_event, hT, hP, Bool.false_eq_true, if_false, ite_false]
    rw [if_pos hnotin]
  · intro hin hmiss
    have hbuild : ∃ msg, build_ingest_request payload
        (source_channel_for_event channel (pyLower (pyStrip (payload.event_type.getD ""))))
        payload.phone = .error (.permanent msg) := by
      by_cases hname : hasNonEmptyStr (extracted_name payload)
      · rcases hmiss with hmiss | hmiss
        · exact absurd hname hmiss
        · obtain ⟨n, hn, hns⟩ := hname
          exact ⟨_, build_ingest_request_missing_phone hn hns hmiss⟩
      · exact ⟨_, build_ingest_request_missing_name hname⟩
    obtain ⟨msg, hbuild⟩ := hbuild
    refine ⟨msg, ?_⟩
    simp only [process_channel_event, hT, hP, Bool.false_eq_true, if_false, ite_false]
    rw [if_neg (not_not_intro hin)]
    simp only [hbuild]
  · intro jid hin hjv hne hjob
    cases hbuild : build_ingest_request payload
        (source_channel_for_event channel (pyLower (pyStrip (payload.event_type.getD ""))))
        payload.phone with
    | error e =>
        obtain ⟨m, hm⟩ := build_ingest_request_error_permanent hbuild
        refine ⟨m, ?_⟩
        simp only [process_channel_event, hT, hP, Bool.false_eq_true, if_false, ite_false]
        rw [if_neg (not_not_intro hin)]
        simp only [hbuild, hm]
    | ok req =>
        have hjid : req.job_id = some jid := by
          have h1 := build_ingest_request_ok_job_id hbuild
          rw [hjv] at h1
          exact (Option.some.inj h1).symm
        refine ⟨"job not found: " ++ jid, ?_⟩
        simp only [process_channel_event, hT, hP, Bool.false_eq_true, if_false, ite_false]
        rw [if_neg (not_not_intro hin)]
        simp [hbuild, hjid, truthyStr, get_job, hjob, hne]

/-- **C7 witness**: against the empty store, a `"status_update"` event is
ignored; a `candidate_lead` without any name field is a permanent error;
and a `candidate_lead` with name, phone and an unknown job id is a
permanent error. -/
theorem C7_witness :
    process_channel_event (fun _ _ => 0) initState "whatsapp"
        { event_id := "evt_a", event_type := some "status_update" } 0
      = .ok ("ignored_event_type", initState)
    ∧ (∃ msg, process_channel_event (fun _ _ => 0) initState "whatsapp"
        { event_id := "evt_b", event_type := some "candidate_lead",
          payload := [("phone", .str "9000011111")] } 0
      = .error (.permanent msg, initState))
    ∧ (∃ msg, process_channel_event (fun _ _ => 0) initState "whatsapp"
        { event_id := "evt_c", event_type := some "candidate_lead",
          payload := [("name", .str "Asha Rao"), ("phone", .str "9000011111"),
            ("job_id", .str "job_missing")] } 0
      = .error (.permanent msg, initState)) := by
  refine ⟨?_, ?_, ?_⟩
  · exact (C7_channel_event_outcomes (fun _ _ => 0) initState "whatsapp"
      { event_id := "evt_a", event_type := some "status_update" } 0 rfl rfl).1
      (by decide)
  · exact (C7_channel_event_outcomes (fun _ _ => 0) initState "whatsapp"
      { event_id := "evt_b", event_type := some "candidate_lead",
        payload := [("phone", .str "9000011111")] } 0 rfl rfl).2.1
      (by decide)
      (Or.inl (by rintro ⟨n, hn, -⟩; cases hn))
  · exact (C7_channel_event_outcomes (fun _ _ => 0) initState "whatsapp"
      { event_id := "evt_c", event_type := some "candidate_lead",
        payload := [("name", .str "Asha Rao"), ("phone", .str "9000011111"),
          ("job_id", .str "job_missing")] } 0 rfl rfl).2.2 "job_missing"
      (by decide) rfl (by decide) rfl

/-! ## The store invariant (C4, C8): generic preservation lemmas -/

theorem AList.set_eq_append_of_get?_none {κ α : Type} [DecidableEq κ] {m : AList κ α}
    {k : κ} (v : α) (h : m.get? k = none) : m.set k v = m ++ [(k, v)] := by
  induction m with
  | nil => simp [AList.set]
  | cons p m ih =>
      by_cases hp : p.1 = k
      · simp [AList.get?, hp] at h
      · simp only [AList.get?, hp, ite_false] at h
        simp [AList.set, hp, ih h]

theorem values_nodup_of_keyed {α : Type} {m : AList Id α} (idOf : α → Id)
    (hkeyed : ∀ p ∈ m, idOf p.2 = p.1) (hnd : (AList.keys m).Nodup) :
    (AList.values m).Nodup := by
  have hmap : (AList.values m).map idOf = AList.keys m := by
    unfold AList.values AList.keys
    rw [List.map_map]
    exact List.map_congr_left hkeyed
  have h2 : ((AList.values m).map idOf).Nodup := by rw [hmap]; exact hnd
  exact h2.of_map idOf

theorem Inv.of_parts {s s' : State} (h : Inv s)
    (happs : s'.applications = s.applications)
    (haudit : s'.audit_events = s.audit_events)
    (hleads : s'.website_leads = s.website_leads)
    (hnext : s.nextId ≤ s'.nextId) : Inv s' := by
  constructor
  · rw [happs]; exact h.apps_keyed
  · rw [happs]
    intro p hp
    obtain ⟨n, hn, hlt⟩ := h.apps_fresh p hp
    exact ⟨n, hn, lt_of_lt_of_le hlt hnext⟩
  · rw [happs]; exact h.apps_nodup
  · rw [hleads]; exact h.leads_keyed
  · rw [hleads]
    intro p hp
    obtain ⟨n, hn, hlt⟩ := h.leads_fresh p hp
    exact ⟨n, hn, lt_of_lt_of_le hlt hnext⟩
  · rw [hleads]; exact h.leads_nodup
  · rw [happs]; exact h.pair_unique
  · rw [happs, haudit]; exact h.audit_one
  · rw [happs, haudit]; exact h.audit_ref

theorem apps_get?_mkId_none {s : State} (h : Inv s) {n : Nat} (hn : s.nextId ≤ n) :
    s.applications.get? (mkId n) = none := by
  cases hget : s.applications.get? (mkId n) with
  | none => rfl
  | some a =>
      exfalso
      obtain ⟨m, hm, hlt⟩ := h.apps_fresh _ (AList.mem_of_get?_eq_some hget)
      rw [mkId_injective hm] at hn
      omega

theorem leads_get?_mkId_none {s : State} (h : Inv s) {n : Nat} (hn : s.nextId ≤ n) :
    s.website_leads.get? (mkId n) = none := by
  cases hget : s.website_leads.get? (mkId n) with
  | none => rfl
  | some a =>
      exfalso
      obtain ⟨m, hm, hlt⟩ := h.leads_fresh _ (AList.mem_of_get?_eq_some hget)
      rw [mkId_injective hm] at hn
      omega

theorem app_id_fresh_of_mem_values {s : State} (h : Inv s) {a : ApplicationRecord}
    (ha : a ∈ AList.values s.applications) : ∃ n, a.id = mkId n ∧ n < s.nextId := by
  obtain ⟨p, hp, hpa⟩ := AList.exists_key_of_mem_values ha
  obtain ⟨n, hn, hlt⟩ := h.apps_fresh p hp
  exact ⟨n, by rw [← hpa, h.apps_keyed p hp, hn], hlt⟩

theorem inv_insert_app {s : State} (newapp : ApplicationRecord) (ev : AuditEventRecord)
    (h : Inv s)
    (hid : newapp.id = mkId s.nextId)
    (hpair : ∀ a ∈ AList.values s.applications,
      ¬ (a.job_id = newapp.job_id ∧ a.candidate_id = newapp.candidate_id))
    (hev_ref : ev.application_id = newapp.id)
    (hev_cre : isCreationEvent ev)
    {s' : State}
    (happs : s'.applications = s.applications.set newapp.id newapp)
    (haudit : s'.audit_events = s.audit_events ++ [ev])
    (hleads : s'.website_leads = s.website_leads)
    (hnext : s.nextId < s'.nextId) : Inv s' := by
  have hfresh : s.applications.get? (mkId s.nextId) = none :=
    apps_get?_mkId_none h (le_refl _)
  have happend : s.applications.set newapp.id newapp
      = s.applications ++ [(newapp.id, newapp)] := by
    rw [hid]
    exact AList.set_eq_append_of_get?_none _ hfresh
  have hvalues : AList.values (s.applications.set newapp.id newapp)
      = AList.values s.applications ++ [newapp] := by
    rw [happend]
    simp [AList.values]
  have hkeys : AList.keys (s.applications.set newapp.id newapp)
      = AList.keys s.applications ++ [newapp.id] := by
    rw [happend]
    simp [AList.keys]
  have hnotin : newapp.id ∉ AList.keys s.applications := by
    rw [hid]
    exact AList.get?_eq_none_iff.mp hfresh
  constructor
  · rw [happs, happend]
    intro p hp
    rcases List.mem_append.mp hp with hp | hp
    · exact h.apps_keyed p hp
    · rw [List.mem_singleton.mp hp]
  · rw [happs, happend]
    intro p hp
    rcases List.mem_append.mp hp with hp | hp
    · obtain ⟨n, hn, hlt⟩ := h.apps_fresh p hp
      exact ⟨n, hn, by omega⟩
    · rw [List.mem_singleton.mp hp]
      exact ⟨s.nextId, hid, hnext⟩
  · rw [happs, hkeys]
    simp only [List.nodup_append, List.nodup_cons]
    refine ⟨h.apps_nodup, by simp, ?_⟩
    intro a ha
    simp only [List.mem_singleton]
    intro hak
    rw [hak] at ha
    exact hnotin ha
  · rw [hleads]; exact h.leads_keyed
  · rw [hleads]
    intro p hp
    obtain ⟨n, hn, hlt⟩ := h.leads_fresh p hp
    exact ⟨n, hn, by omega⟩
  · rw [hleads]; exact h.leads_nodup
  · rw [happs, hvalues]
    intro a ha b hb hj hc
    rcases List.mem_append.mp ha with ha | ha <;>
      rcases List.mem_append.mp hb with hb | hb
    · exact h.pair_unique a ha b hb hj hc
    · rw [List.mem_singleton.mp hb] at hj hc ⊢
      exact absurd ⟨hj, hc⟩ (hpair a ha)
    · rw [List.mem_singleton.mp ha] at hj hc ⊢
      exact absurd ⟨hj.symm, hc.symm⟩ (hpair b hb)
    · rw [List.mem_singleton.mp ha, List.mem_singleton.mp hb]
  · rw [happs, haudit, hvalues]
    intro a ha
    rw [List.filter_append]
    rcases List.mem_append.mp ha with ha | ha
    · obtain ⟨n, hna, hlt⟩ := app_id_fresh_of_mem_values h ha
      have hne : ev.application_id ≠ a.id := by
        rw [hev_ref, hid, hna]
        intro hcontra
        have := mkId_injective hcontra
        omega
      have hnil : [ev].filter (fun e =>
          decide (isCreationEvent e ∧ e.application_id = a.id)) = [] := by
        simp [hne]
      rw [hnil]
      simpa using h.audit_one a ha
    · rw [List.mem_singleton.mp ha]
      have hnil : s.audit_events.filter (fun e =>
          decide (isCreationEvent e ∧ e.application_id = newapp.id)) = [] := by
        rw [List.filter_eq_nil_iff]
        intro e he
        simp only [decide_eq_true_eq, not_and]
        intro hcre heid
        obtain ⟨b, hb, hbid⟩ := h.audit_ref e he hcre
        obtain ⟨n, hnb, hlt⟩ := app_id_fresh_of_mem_values h hb
        rw [hnb, heid, hid] at hbid
        have := mkId_injective hbid
        omega
      rw [hnil]
      simp [hev_cre, hev_ref]
  · rw [happs, haudit, hvalues]
    intro e he hcre
    rcases List.mem_append.mp he with he | he
    · obtain ⟨b, hb, hbid⟩ := h.audit_ref e he hcre
      exact ⟨b, List.mem_append.mpr (Or.inl hb), hbid⟩
    · rw [List.mem_singleton.mp he]
      exact ⟨newapp, List.mem_append.mpr (Or.inr (List.mem_singleton.mpr rfl)),
        hev_ref.symm⟩

theorem AList.mem_set {κ α : Type} [DecidableEq κ] {m : AList κ α} {k : κ} {v : α}
    {p : κ × α} (hp : p ∈ m.set k v) : p ∈ m ∨ p = (k, v) := by
  induction m with
  | nil => simpa [AList.set] using hp
  | cons q m ih =>
      by_cases hq : q.1 = k
      · simp only [AList.set, hq, ite_true] at hp
        rcases List.mem_cons.mp hp with h1 | h1
        · exact Or.inr h1
        · exact Or.inl (List.mem_cons_of_mem _ h1)
      · simp only [AList.set, hq, ite_false] at hp
        rcases List.mem_cons.mp hp with h1 | h1
        · exact Or.inl (by rw [h1]; exact List.mem_cons_self _ _)
        · rcases ih h1 with h2 | h2
          · exact Or.inl (List.mem_cons_of_mem _ h2)
          · exact Or.inr h2

theorem inv_update_app {s : State} {k : Id} {old : ApplicationRecord}
    (v : ApplicationRecord) (tail : List AuditEventRecord) (h : Inv s)
    (hget : s.applications.get? k = some old)
    (hid : v.id = old.id) (hjob : v.job_id = old.job_id)
    (hcand : v.candidate_id = old.candidate_id)
    (htail : ∀ e ∈ tail, ¬ isCreationEvent e)
    {s' : State}
    (happs : s'.applications = s.applications.set k v)
    (haudit : s'.audit_events = s.audit_events ++ tail)
    (hleads : s'.website_leads = s.website_leads)
    (hnext : s.nextId ≤ s'.nextId) : Inv s' := by
  have hmemold : (k, old) ∈ s.applications := AList.mem_of_get?_eq_some hget
  have hkold : old.id = k := h.apps_keyed _ hmemold
  have hkeys : (s.applications.set k v).keys = s.applications.keys :=
    AList.keys_set_of_get?_some v hget
  obtain ⟨l₁, l₂, hdec, hdec'⟩ := AList.values_set_decomp v hget
  have hvnodup : (AList.values s.applications).Nodup :=
    values_nodup_of_keyed _ h.apps_keyed h.apps_nodup
  have hold_not : old ∉ l₁ ∧ old ∉ l₂ := by
    have h3 := hvnodup
    rw [hdec, List.nodup_append] at h3
    exact ⟨fun hmem => h3.2.2 hmem (List.mem_cons_self _ _),
      (List.nodup_cons.mp h3.2.1).1⟩
  have hmemv : old ∈ AList.values s.applications := AList.mem_values_of_get? hget
  have hmid : ∀ x, x ∈ l₁ ++ l₂ → x ∈ AList.values s.applications := by
    intro x hx
    rw [hdec]
    rcases List.mem_append.mp hx with hx | hx
    · exact List.mem_append.mpr (Or.inl hx)
    · exact List.mem_append.mpr (Or.inr (List.mem_cons_of_mem _ hx))
  have hsplit : ∀ x, x ∈ l₁ ++ v :: l₂ → x ∈ l₁ ++ l₂ ∨ x = v := by
    intro x hx
    rcases List.mem_append.mp hx with hx | hx
    · exact Or.inl (List.mem_append.mpr (Or.inl hx))
    · rcases List.mem_cons.mp hx with hx | hx
      · exact Or.inr hx
      · exact Or.inl (List.mem_append.mpr (Or.inr hx))
  constructor
  · rw [happs]
    intro p hp
    rcases AList.mem_set hp with hp | hp
    · exact h.apps_keyed p hp
    · rw [hp]
      rw [hid, hkold]
  · rw [happs]
    intro p hp
    rcases AList.mem_set hp with hp | hp
    · obtain ⟨n, hn, hlt⟩ := h.apps_fresh p hp
      exact ⟨n, hn, by omega⟩
    · obtain ⟨n, hn, hlt⟩ := h.apps_fresh _ hmemold
      rw [hp]
      exact ⟨n, hn, by omega⟩
  · rw [happs, hkeys]
    exact h.apps_nodup
  · rw [hleads]; exact h.leads_keyed
  · rw [hleads]
    intro p hp
    obtain ⟨n, hn, hlt⟩ := h.leads_fresh p hp
    exact ⟨n, hn, by omega⟩
  · rw [hleads]; exact h.leads_nodup
  · rw [happs, hdec']
    intro a ha b hb hj hc
    rcases hsplit a ha with ha' | ha' <;> rcases hsplit b hb with hb' | hb'
    · exact h.pair_unique a (hmid a ha') b (hmid b hb') hj hc
    · rw [hb', hjob] at hj
      rw [hb', hcand] at hc
      have : a = old := h.pair_unique a (hmid a ha') old hmemv hj hc
      rw [this] at ha'
      rcases List.mem_append.mp ha' with hx | hx
      · exact absurd hx hold_not.1
      · exact absurd hx hold_not.2
    · rw [ha', hjob] at hj
      rw [ha', hcand] at hc
      have : b = old := h.pair_unique b (hmid b hb') old hmemv hj.symm hc.symm
      rw [this] at hb'
      rcases List.mem_append.mp hb' with hx | hx
      · exact absurd hx hold_not.1
      · exact absurd hx hold_not.2
    · rw [ha', hb']
  · rw [happs, haudit, hdec']
    intro a ha
    rw [List.filter_append]
    have htnil : ∀ appid, tail.filter (fun e =>
        decide (isCreationEvent e ∧ e.application_id = appid)) = [] := by
      intro appid
      rw [List.filter_eq_nil_iff]
      intro e he
      simp only [decide_eq_true_eq, not_and]
      intro hcre
      exact absurd hcre (htail e he)
    rcases hsplit a ha with ha' | ha'
    · rw [htnil]
      simpa using h.audit_one a (hmid a ha')
    · rw [htnil, ha', hid]
      simpa using h.audit_one old hmemv
  · rw [happs, haudit, hdec']
    intro e he hcre
    have he' : e ∈ s.audit_events := by
      rcases List.mem_append.mp he with he | he
      · exact he
      · exact absurd hcre (htail e he)
    obtain ⟨b, hb, hbid⟩ := h.audit_ref e he' hcre
    by_cases hbold : b = old
    · refine ⟨v, ?_, ?_⟩
      · exact List.mem_append.mpr (Or.inr (List.mem_cons_self _ _))
      · rw [hid, ← hbold]
        exact hbid
    · refine ⟨b, ?_, hbid⟩
      rw [hdec] at hb
      rcases List.mem_append.mp hb with hb | hb
      · exact List.mem_append.mpr (Or.inl hb)
      · rcases List.mem_cons.mp hb with hb | hb
        · exact absurd hb hbold
        · exact List.mem_append.mpr (Or.inr (List.mem_cons_of_mem _ hb))

theorem inv_update_lead {s : State} {k : Id} {old : WebsiteLeadRecord}
    (v : WebsiteLeadRecord) (h : Inv s)
    (hget : s.website_leads.get? k = some old) (hid : v.id = old.id)
    {s' : State}
    (happs : s'.applications = s.applications)
    (haudit : s'.audit_events = s.audit_events)
    (hleads : s'.website_leads = s.website_leads.set k v)
    (hnext : s.nextId ≤ s'.nextId) : Inv s' := by
  have hmemold : (k, old) ∈ s.website_leads := AList.mem_of_get?_eq_some hget
  have hkold : old.id = k := h.leads_keyed _ hmemold
  constructor
  · rw [happs]; exact h.apps_keyed
  · rw [happs]
    intro p hp
    obtain ⟨n, hn, hlt⟩ := h.apps_fresh p hp
    exact ⟨n, hn, by omega⟩
  · rw [happs]; exact h.apps_nodup
  · rw [hleads]
    intro p hp
    rcases AList.mem_set hp with hp | hp
    · exact h.leads_keyed p hp
    · rw [hp]
      rw [hid, hkold]
  · rw [hleads]
    intro p hp
    rcases AList.mem_set hp with hp | hp
    · obtain ⟨n, hn, hlt⟩ := h.leads_fresh p hp
      exact ⟨n, hn, by omega⟩
    · obtain ⟨n, hn, hlt⟩ := h.leads_fresh _ hmemold
      rw [hp]
      exact ⟨n, hn, by omega⟩
  · rw [hleads, AList.keys_set_of_get?_some v hget]
    exact h.leads_nodup
  · rw [happs]; exact h.pair_unique
  · rw [happs, haudit]; exact h.audit_one
  · rw [happs, haudit]; exact h.audit_ref

theorem inv_insert_lead {s : State} (v : WebsiteLeadRecord) (h : Inv s)
    {s' : State}
    (happs : s'.applications = s.applications)
    (haudit : s'.audit_events = s.audit_events)
    (hleads : s'.website_leads = s.website_leads.set (mkId s.nextId) v)
    (hid : v.id = mkId s.nextId)
    (hnext : s.nextId < s'.nextId) : Inv s' := by
  have hfresh : s.website_leads.get? (mkId s.nextId) = none :=
    leads_get?_mkId_none h (le_refl _)
  have happend : s.website_leads.set (mkId s.nextId) v
      = s.website_leads ++ [(mkId s.nextId, v)] :=
    AList.set_eq_append_of_get?_none _ hfresh
  have hnotin : mkId s.nextId ∉ AList.keys s.website_leads :=
    AList.get?_eq_none_iff.mp hfresh
  constructor
  · rw [happs]; exact h.apps_keyed
  · rw [happs]
    intro p hp
    obtain ⟨n, hn, hlt⟩ := h.apps_fresh p hp
    exact ⟨n, hn, by omega⟩
  · rw [happs]; exact h.apps_nodup
  · rw [hleads, happend]
    intro p hp
    rcases List.mem_append.mp hp with hp | hp
    · exact h.leads_keyed p hp
    · rw [List.mem_singleton.mp hp]
      exact hid
  · rw [hleads, happend]
    intro p hp
    rcases List.mem_append.mp hp with hp | hp
    · obtain ⟨n, hn, hlt⟩ := h.leads_fresh p hp
      exact ⟨n, hn, by omega⟩
    · rw [List.mem_singleton.mp hp]
      exact ⟨s.nextId, rfl, hnext⟩
  · rw [hleads, happend]
    show (AList.keys (s.website_leads ++ [(mkId s.nextId, v)])).Nodup
    have : AList.keys (s.website_leads ++ [(mkId s.nextId, v)])
        = AList.keys s.website_leads ++ [mkId s.nextId] := by
      simp [AList.keys]
    rw [this]
    simp only [List.nodup_append, List.nodup_cons]
    refine ⟨h.leads_nodup, by simp, ?_⟩
    intro a ha
    simp only [List.mem_singleton]
    intro hak
    rw [hak] at ha
    exact hnotin ha
  · rw [happs]; exact h.pair_unique
  · rw [happs, haudit]; exact h.audit_one
  · rw [happs, haudit]; exact h.audit_ref

theorem inv_ingest_candidate (sim : String → String → ℚ) (s : State)
    (request : CandidateIngestRequest) (now : ℚ) (h : Inv s) :
    Inv (ingest_candidate sim s request now).2 := by
  unfold ingest_candidate
  cases hfind : (AList.values s.candidates).find? (fun candidate =>
      is_probable_duplicate sim candidate request.phone request.name
        request.last_employer) with
  | some c => exact h
  | none => exact Inv.of_parts h rfl rfl rfl (Nat.le_succ s.nextId)

theorem ingest_candidate_nextId_le (sim : String → String → ℚ) (s : State)
    (request : CandidateIngestRequest) (now : ℚ) :
    s.nextId ≤ (ingest_candidate sim s request now).2.nextId := by
  unfold ingest_candidate
  cases hfind : (AList.values s.candidates).find? (fun candidate =>
      is_probable_duplicate sim candidate request.phone request.name
        request.last_employer) with
  | some c => exact le_refl _
  | none => exact Nat.le_succ _

theorem ingest_candidate_leads_eq (sim : String → String → ℚ) (s : State)
    (request : CandidateIngestRequest) (now : ℚ) :
    (ingest_candidate sim s request now).2.website_leads = s.website_leads := by
  unfold ingest_candidate
  cases hfind : (AList.values s.candidates).find? (fun candidate =>
      is_probable_duplicate sim candidate request.phone request.name
        request.last_employer) with
  | some c => rfl
  | none => rfl

theorem inv_create_or_get_application (s : State) (job_id candidate_id : Id) (now : ℚ)
    (h : Inv s) : Inv (create_or_get_application s job_id candidate_id now).2 := by
  unfold create_or_get_application
  cases hfind : (AList.values s.applications).find? (fun application =>
      decide (application.job_id = job_id ∧ application.candidate_id = candidate_id)) with
  | some a => exact h
  | none =>
      have hpair : ∀ a ∈ AList.values s.applications,
          ¬ (a.job_id = job_id ∧ a.candidate_id = candidate_id) := by
        intro a ha hcontra
        have hx := List.find?_eq_none.mp hfind a ha
        simp only [decide_eq_true_eq] at hx
        exact hx hcontra
      exact inv_insert_app
        { id := mkId s.nextId, job_id := job_id, candidate_id := candidate_id,
          stage := .new, screening_score := none, created_at_utc := now,
          updated_at_utc := now }
        { id := mkId (s.nextId + 1), application_id := mkId s.nextId,
          from_stage := none, to_stage := .new, reason := "application_created",
          created_at_utc := now }
        h rfl hpair rfl ⟨rfl, rfl⟩ rfl rfl rfl (show s.nextId < s.nextId + 1 + 1 by omega)

theorem create_or_get_application_nextId_le (s : State) (job_id candidate_id : Id)
    (now : ℚ) : s.nextId ≤ (create_or_get_application s job_id candidate_id now).2.nextId := by
  unfold create_or_get_application
  cases hfind : (AList.values s.applications).find? (fun application =>
      decide (application.job_id = job_id ∧ application.candidate_id = candidate_id)) with
  | some a => exact le_refl _
  | none => exact Nat.le_add_right _ 2

theorem create_or_get_application_leads_eq (s : State) (job_id candidate_id : Id)
    (now : ℚ) :
    (create_or_get_application s job_id candidate_id now).2.website_leads
      = s.website_leads := by
  unfold create_or_get_application
  cases hfind : (AList.values s.applications).find? (fun application =>
      decide (application.job_id = job_id ∧ application.candidate_id = candidate_id)) with
  | some a => rfl
  | none => rfl

theorem inv_record_webhook_attempt (s : State) (channel event_id : String)
    (success : Bool) (error : Option String) (transient : Bool) (max_retries : Nat)
    (backoff_seconds now : ℚ) (h : Inv s) :
    Inv (record_webhook_attempt s channel event_id success error transient max_retries
      backoff_seconds now).2 := by
  simp only [record_webhook_attempt]
  cases hget : s.webhook_deliveries.get? (webhook_key channel event_id) with
  | some r => exact Inv.of_parts h rfl rfl rfl (le_refl _)
  | none => exact Inv.of_parts h rfl rfl rfl (Nat.le_succ s.nextId)

theorem inv_step (sim : String → String → ℚ) (o : Op) (s : State) (h : Inv s) :
    Inv (step sim o s) := by
  cases o with
  | createEmployerAndJob request now =>
      exact Inv.of_parts h rfl rfl rfl (by omega : s.nextId ≤ s.nextId + 2)
  | ingestCandidate request now => exact inv_ingest_candidate sim s request now h
  | createOrGetApplication job_id candidate_id now =>
      exact inv_create_or_get_application s job_id candidate_id now h
  | setScreeningScore application_id score now =>
      show Inv (match set_screening_score s application_id score now with
        | .ok r => r.2
        | .error _ => s)
      cases hget : s.applications.get? application_id with
      | none => simp only [set_screening_score, hget]; exact h
      | some application =>
          have happ : application.id = application_id :=
            h.apps_keyed _ (AList.mem_of_get?_eq_some hget)
          have hget2 : s.applications.get? application.id = some application := by
            rw [happ]; exact hget
          simp only [set_screening_score, hget]
          exact inv_update_app
            { application with screening_score := some score, updated_at_utc := now }
            [] h hget2 rfl rfl rfl (by simp) rfl (by simp) rfl (le_refl _)
  | createScreening job_id candidate_id application_id hard_filter_pass
      overall_fit_score explanation now =>
      exact Inv.of_parts h rfl rfl rfl (Nat.le_succ s.nextId)
  | createInterview application_id mode scheduled_at_utc now =>
      exact Inv.of_parts h rfl rfl rfl (Nat.le_succ s.nextId)
  | createOffer application_id monthly_pay joining_date now =>
      show Inv ((create_offer s application_id monthly_pay joining_date now).2)
      unfold create_offer
      cases hfind : (AList.values s.offers).find? (fun offer =>
          decide (offer.application_id = application_id)) with
      | some offer => exact h
      | none => exact Inv.of_parts h rfl rfl rfl (Nat.le_succ s.nextId)
  | transitionApplication application_id to_stage reason now =>
      show Inv (match transition_application s application_id to_stage reason now with
        | .ok r => r.2
        | .error _ => s)
      cases hget : s.applications.get? application_id with
      | none => simp only [transition_application, hget]; exact h
      | some application =>
          have happ : application.id = application_id :=
            h.apps_keyed _ (AList.mem_of_get?_eq_some hget)
          have hget2 : s.applications.get? application.id = some application := by
            rw [happ]; exact hget
          by_cases hsame : application.stage = to_stage
          · simp only [transition_application, hget, if_pos hsame]
            exact h
          · by_cases hmem : to_stage ∈ ALLOWED_TRANSITIONS application.stage
            · simp only [transition_application, hget, if_neg hsame,
                if_neg (not_not_intro hmem)]
              exact inv_update_app
                { application with stage := to_stage, updated_at_utc := now }
                [{ id := mkId s.nextId, application_id := application.id,
                   from_stage := some application.stage, to_stage := to_stage,
                   reason := reason, created_at_utc := now }]
                h hget2 rfl rfl rfl
                (by
                  intro e he hcre
                  rw [List.mem_singleton.mp he] at hcre
                  exact Option.some_ne_none _ hcre.2)
                rfl rfl rfl (Nat.le_succ _)
            · simp only [transition_application, hget, if_neg hsame,
                if_pos (show to_stage ∉ ALLOWED_TRANSITIONS application.stage from hmem)]
              exact h
  | ensureWebhookDelivery channel event_id now =>
      show Inv ((ensure_webhook_delivery s channel event_id now).2)
      simp only [ensure_webhook_delivery]
      cases hget : s.webhook_deliveries.get? (webhook_key channel event_id) with
      | some r => exact h
      | none => exact Inv.of_parts h rfl rfl rfl (Nat.le_succ s.nextId)
  | recordWebhookAttempt channel event_id success error transient max_retries
      backoff_seconds now =>
      exact inv_record_webhook_attempt s channel event_id success error transient
        max_retries backoff_seconds now h
  | registerWebhookEvent event_id now =>
      show Inv ((register_webhook_event s event_id now).2)
      unfold register_webhook_event
      cases hget : get_webhook_delivery s "legacy" event_id with
      | some existing =>
          by_cases hst : existing.status = WebhookProcessingStatus.processed
          · simp only [if_pos hst]
            exact h
          · simp only [if_neg hst]
            exact inv_record_webhook_attempt s "legacy" event_id true none false 3 60 now h
      | none => exact inv_record_webhook_attempt s "legacy" event_id true none false 3 60 now h
  | createFirstTenCampaign employer_name city neighborhood_focus
      whatsapp_business_number target_joiners fresher_preferred
      first_contact_sla_minutes now =>
      exact Inv.of_parts h rfl rfl rfl (Nat.le_succ s.nextId)
  | createManualLead request now =>
      show Inv ((create_manual_lead sim s request now).2)
      unfold create_manual_lead
      by_cases hj : truthyStr request.job_id
      · simp only [hj, if_true]
        refine Inv.of_parts
          (inv_create_or_get_application _ _ _ now (inv_ingest_candidate sim s _ now h))
          rfl rfl rfl ?_
        exact Nat.le_succ _
      · simp only [hj, if_false]
        refine Inv.of_parts (inv_ingest_candidate sim s _ now h) rfl rfl rfl ?_
        exact Nat.le_succ _
  | createWebsiteLead request default_first_contact_sla_minutes
      default_whatsapp_number now =>
      show Inv (match create_website_lead sim s request default_first_contact_sla_minutes
          default_whatsapp_number now with
        | .ok r => r.2
        | .error _ => s)
      unfold create_website_lead
      by_cases hc : truthyStr request.campaign_id
      · simp only [hc, if_true]
        cases hcamp : get_first_ten_campaign s (request.campaign_id.getD "") with
        | error e => exact h
        | ok c =>
            by_cases hjb : truthyStr request.job_id
            · simp only [hjb, if_true]
              exact inv_insert_lead _
                (inv_create_or_get_application _ _ _ _
                  (inv_ingest_candidate sim s _ now h))
                rfl rfl rfl (by rfl) (Nat.lt_succ_self _)
            · simp only [hjb, if_false]
              exact inv_insert_lead _ (inv_ingest_candidate sim s _ now h)
                rfl rfl rfl (by rfl) (Nat.lt_succ_self _)
      · simp only [hc, if_false]
        by_cases hjb : truthyStr request.job_id
        · simp only [hjb, if_true]
          exact inv_insert_lead _
            (inv_create_or_get_application _ _ _ _
              (inv_ingest_candidate sim s _ now h))
            rfl rfl rfl (by rfl) (Nat.lt_succ_self _)
        · simp only [hjb, if_false]
          exact inv_insert_lead _ (inv_ingest_candidate sim s _ now h)
            rfl rfl rfl (by rfl) (Nat.lt_succ_self _)
  | markWebsiteLeadContacted lead_id contacted_at_utc now =>
      show Inv (match mark_website_lead_contacted s lead_id contacted_at_utc now with
        | .ok r => r.2
        | .error _ => s)
      cases hget : s.website_leads.get? lead_id with
      | none => simp only [mark_website_lead_contacted, hget]; exact h
      | some lead =>
          simp only [mark_website_lead_contacted, hget]
          exact inv_update_lead
            { lead with
                first_contact_at_utc := some (contacted_at_utc.getD now)
                sla_breached := decide (contacted_at_utc.getD now
                  > lead.first_contact_due_utc)
                updated_at_utc := now }
            h hget rfl rfl rfl rfl (le_refl _)
  | recordWebsiteEvent request now =>
      show Inv (match record_website_event s request now with
        | .ok r => r.2
        | .error _ => s)
      unfold record_website_event
      by_cases h1 : truthyStr request.lead_id
          ∧ ¬ s.website_leads.contains (request.lead_id.getD "")
      · simp only [if_pos h1]
        exact h
      · simp only [if_neg h1]
        by_cases h2 : truthyStr request.campaign_id
            ∧ ¬ s.first_ten_campaigns.contains (request.campaign_id.getD "")
        · simp only [if_pos h2]
          exact h
        · simp only [if_neg h2]
          by_cases h3 : request.event_type = WebsiteEventType.wa_click
              ∧ truthyStr request.lead_id
          · simp only [if_pos h3]
            cases hget : s.website_leads.get? (request.lead_id.getD "") with
            | none => exact Inv.of_parts h rfl rfl rfl (Nat.le_succ s.nextId)
            | some lead =>
                exact inv_update_lead
                  { lead with
                      wa_click_count := lead.wa_click_count + 1
                      updated_at_utc := now }
                  h hget rfl rfl rfl rfl (Nat.le_succ s.nextId)
          · simp only [if_neg h3]
            exact Inv.of_parts h rfl rfl rfl (Nat.le_succ s.nextId)
  | logFirstTenEvent campaign_id event_type count now =>
      show Inv (match log_first_ten_event s campaign_id event_type count now with
        | .ok r => r.2
        | .error _ => s)
      cases hget : s.first_ten_campaigns.get? campaign_id with
      | none => simp only [log_first_ten_event, hget]; exact h
      | some campaign =>
          simp only [log_first_ten_event, hget]
          exact Inv.of_parts h rfl rfl rfl (le_refl _)

theorem inv_init : Inv initState := by
  constructor
  · intro p hp; cases hp
  · intro p hp; cases hp
  · exact List.nodup_nil
  · intro p hp; cases hp
  · intro p hp; cases hp
  · exact List.nodup_nil
  · intro a ha; cases ha
  · intro a ha; cases ha
  · intro e he; cases he

theorem inv_reachable {sim : String → String → ℚ} {s : State}
    (h : Reachable sim s) : Inv s := by
  induction h with
  | init => exact inv_init
  | step o hr ih => exact inv_step sim o _ ih

/-! ## C4: application uniqueness -/

theorem mem_appsOfPair_iff {s : State} {j c : Id} {a : ApplicationRecord} :
    a ∈ appsOfPair s j c
      ↔ a ∈ AList.values s.applications ∧ a.job_id = j ∧ a.candidate_id = c := by
  simp [appsOfPair, List.mem_filter]

theorem appsOfPair_length_le_one {s : State} (h : Inv s) (j c : Id) :
    (appsOfPair s j c).length ≤ 1 := by
  have hnd : (appsOfPair s j c).Nodup :=
    (values_nodup_of_keyed (fun a => a.id) h.apps_keyed h.apps_nodup).filter _
  have hall : ∀ a ∈ appsOfPair s j c, ∀ b ∈ appsOfPair s j c, a = b := by
    intro a ha b hb
    obtain ⟨ha1, ha2, ha3⟩ := mem_appsOfPair_iff.mp ha
    obtain ⟨hb1, hb2, hb3⟩ := mem_appsOfPair_iff.mp hb
    exact h.pair_unique a ha1 b hb1 (by rw [ha2, hb2]) (by rw [ha3, hb3])
  cases hl : appsOfPair s j c with
  | nil => simp
  | cons a t =>
      cases ht : t with
      | nil => simp
      | cons b t2 =>
          exfalso
          rw [hl, ht] at hnd hall
          have hab : a = b := hall a (by simp) b (by simp)
          exact (List.nodup_cons.mp hnd).1 (by rw [hab]; exact List.mem_cons_self _ _)

theorem creationEventsOfPair_empty {s : State} {j c : Id}
    (h0 : appsOfPair s j c = []) : creationEventsOfPair s j c = [] := by
  unfold creationEventsOfPair
  rw [List.filter_eq_nil_iff]
  intro e he
  simp only [decide_eq_true_eq, not_exists, not_and]
  rintro hce a ha hid hj
  intro hc2
  have : a ∈ appsOfPair s j c := mem_appsOfPair_iff.mpr ⟨ha, hj, hc2⟩
  rw [h0] at this
  cases this

theorem creationEventsOfPair_single {s : State} (h : Inv s) {j c : Id}
    {a : ApplicationRecord} (ha : appsOfPair s j c = [a]) :
    (creationEventsOfPair s j c).length = 1 := by
  have hmem : a ∈ appsOfPair s j c := by rw [ha]; exact List.mem_singleton_self a
  obtain ⟨hav, haj, hac⟩ := mem_appsOfPair_iff.mp hmem
  have hcongr : creationEventsOfPair s j c
      = s.audit_events.filter (fun e =>
          decide (isCreationEvent e ∧ e.application_id = a.id)) := by
    unfold creationEventsOfPair
    apply List.filter_congr
    intro e he
    simp only [decide_eq_decide]
    constructor
    · rintro ⟨hce, b, hb, hbid, hbj, hbc⟩
      refine ⟨hce, ?_⟩
      have hbmem : b ∈ appsOfPair s j c := mem_appsOfPair_iff.mpr ⟨hb, hbj, hbc⟩
      rw [ha, List.mem_singleton] at hbmem
      rw [← hbid, hbmem]
    · rintro ⟨hce, hid⟩
      exact ⟨hce, a, hav, hid.symm, haj, hac⟩
  rw [hcongr]
  exact h.audit_one a hav

theorem creationEventsOfPair_length {s : State} (h : Inv s) (j c : Id) :
    (creationEventsOfPair s j c).length = (appsOfPair s j c).length := by
  have hle := appsOfPair_length_le_one h j c
  cases hl : appsOfPair s j c with
  | nil =>
      rw [creationEventsOfPair_empty hl]
      rfl
  | cons a t =>
      cases ht : t with
      | nil =>
          rw [ht] at hl
          rw [creationEventsOfPair_single h hl]
          rfl
      | cons b t2 =>
          exfalso
          rw [hl, ht, List.length_cons, List.length_cons] at hle
          omega

theorem create_or_get_application_found {s : State} (h : Inv s) (j c : Id) (now : ℚ) :
    (create_or_get_application s j c now).2.applications.values.find?
        (fun application =>
          decide (application.job_id = j ∧ application.candidate_id = c))
      = some (create_or_get_application s j c now).1 := by
  unfold create_or_get_application
  cases hfind : (AList.values s.applications).find? (fun application =>
      decide (application.job_id = j ∧ application.candidate_id = c)) with
  | some a => exact hfind
  | none =>
      have hfresh : s.applications.get? (mkId s.nextId) = none :=
        apps_get?_mkId_none h (le_refl _)
      simp only [add_audit_event]
      rw [AList.values_set_of_get?_none _ hfresh, List.find?_append, hfind]
      simp

theorem create_or_get_application_second {s : State} (h : Inv s) (j c : Id)
    (now now2 : ℚ) :
    create_or_get_application (create_or_get_application s j c now).2 j c now2
      = ((create_or_get_application s j c now).1,
         (create_or_get_application s j c now).2) := by
  have hf := create_or_get_application_found h j c now
  generalize hr : create_or_get_application s j c now = r at hf ⊢
  simp only [create_or_get_application, hf]

/-- C4: `create_or_get_application` is idempotent — calling it again with the
same (job, candidate) pair returns the very same application record and leaves
the store untouched; when the pair is absent the first call creates the
application at stage `new`; and at every reachable store state there is at most
one application and exactly as many `"application_created"` audit events
(from-stage null) as applications for the pair. -/
theorem C4_application_uniqueness {sim : String → String → ℚ} {s : State}
    (h : Reachable sim s) (j c : Id) (now now2 : ℚ) :
    (create_or_get_application (create_or_get_application s j c now).2 j c now2
        = ((create_or_get_application s j c now).1,
           (create_or_get_application s j c now).2))
    ∧ (appsOfPair s j c = []
        → (create_or_get_application s j c now).1.stage = StageStatus.new)
    ∧ (appsOfPair s j c).length ≤ 1
    ∧ (creationEventsOfPair s j c).length = (appsOfPair s j c).length := by
  have hinv := inv_reachable h
  refine ⟨create_or_get_application_second hinv j c now now2, ?_,
    appsOfPair_length_le_one hinv j c, creationEventsOfPair_length hinv j c⟩
  intro h0
  have hfind : (AList.values s.applications).find? (fun application =>
      decide (application.job_id = j ∧ application.candidate_id = c)) = none := by
    rw [List.find?_eq_none]
    intro a ha
    simp only [decide_eq_true_eq, not_and]
    intro hj hc2
    have : a ∈ appsOfPair s j c := mem_appsOfPair_iff.mpr ⟨ha, hj, hc2⟩
    rw [h0] at this
    cases this
  simp only [create_or_get_application, hfind]

theorem C4_witness :
    (create_or_get_application
        (create_or_get_application initState "j" "c" 0).2 "j" "c" 1
      = ((create_or_get_application initState "j" "c" 0).1,
         (create_or_get_application initState "j" "c" 0).2))
    ∧ (appsOfPair initState "j" "c" = []
        → (create_or_get_application initState "j" "c" 0).1.stage = StageStatus.new)
    ∧ (appsOfPair initState "j" "c").length ≤ 1
    ∧ (creationEventsOfPair initState "j" "c").length
        = (appsOfPair initState "j" "c").length :=
  C4_application_uniqueness
    (Reachable.init : Reachable (fun _ _ => 0) initState) "j" "c" 0 1

/-! ## C8: a contacted lead stays contacted and leaves the SLA queues -/

theorem contacted_of_leads_eq {s s' : State} {k : Id}
    (hleads : s'.website_leads = s.website_leads) (hc : contactedLead s k) :
    contactedLead s' k := by
  obtain ⟨r, hr, hne⟩ := hc
  exact ⟨r, by rw [hleads]; exact hr, hne⟩

theorem contacted_insert {s : State} {k : Id} (h : Inv s) (hc : contactedLead s k)
    {s2 s' : State} (v : WebsiteLeadRecord)
    (hleads : s'.website_leads = s2.website_leads.set (mkId s2.nextId) v)
    (hleads2 : s2.website_leads = s.website_leads)
    (hn2 : s.nextId ≤ s2.nextId) :
    contactedLead s' k := by
  obtain ⟨r, hr, hne⟩ := hc
  obtain ⟨n, hkn, hlt⟩ := h.leads_fresh _ (AList.mem_of_get?_eq_some hr)
  have hkn2 : k = mkId n := hkn
  have hkne : k ≠ mkId s2.nextId := by
    rw [hkn2]
    intro heq
    have := mkId_injective heq
    omega
  refine ⟨r, ?_, hne⟩
  rw [hleads, AList.get?_set_ne _ _ hkne, hleads2]
  exact hr

theorem record_webhook_attempt_leads_eq (s : State) (channel event_id : String)
    (success : Bool) (error : Option String) (transient : Bool) (max_retries : Nat)
    (backoff_seconds now : ℚ) :
    (record_webhook_attempt s channel event_id success error transient max_retries
      backoff_seconds now).2.website_leads = s.website_leads := by
  simp only [record_webhook_attempt]
  cases hget : s.webhook_deliveries.get? (webhook_key channel event_id) with
  | some r => rfl
  | none => rfl

theorem contacted_step {sim : String → String → ℚ} (o : Op) {s : State} (h : Inv s)
    {k : Id} (hc : contactedLead s k) : contactedLead (step sim o s) k := by
  cases o with
  | createEmployerAndJob request now => exact contacted_of_leads_eq rfl hc
  | ingestCandidate request now =>
      exact contacted_of_leads_eq (ingest_candidate_leads_eq sim s request now) hc
  | createOrGetApplication job_id candidate_id now =>
      exact contacted_of_leads_eq
        (create_or_get_application_leads_eq s job_id candidate_id now) hc
  | setScreeningScore application_id score now =>
      show contactedLead (match set_screening_score s application_id score now with
        | .ok r => r.2
        | .error _ => s) k
      cases hget : s.applications.get? application_id with
      | none => simp only [set_screening_score, hget]; exact hc
      | some application =>
          simp only [set_screening_score, hget]
          exact contacted_of_leads_eq rfl hc
  | createScreening job_id candidate_id application_id hard_filter_pass
      overall_fit_score explanation now =>
      exact contacted_of_leads_eq rfl hc
  | createInterview application_id mode scheduled_at_utc now =>
      exact contacted_of_leads_eq rfl hc
  | createOffer application_id monthly_pay joining_date now =>
      show contactedLead ((create_offer s application_id monthly_pay joining_date now).2) k
      unfold create_offer
      cases hfind : (AList.values s.offers).find? (fun offer =>
          decide (offer.application_id = application_id)) with
      | some offer => exact hc
      | none => exact contacted_of_leads_eq rfl hc
  | transitionApplication application_id to_stage reason now =>
      show contactedLead (match transition_application s application_id to_stage reason now with
        | .ok r => r.2
        | .error _ => s) k
      cases hget : s.applications.get? application_id with
      | none => simp only [transition_application, hget]; exact hc
      | some application =>
          by_cases hsame : application.stage = to_stage
          · simp only [transition_application, hget, if_pos hsame]
            exact hc
          · by_cases hmem : to_stage ∈ ALLOWED_TRANSITIONS application.stage
            · simp only [transition_application, hget, if_neg hsame,
                if_neg (not_not_intro hmem)]
              exact contacted_of_leads_eq rfl hc
            · simp only [transition_application, hget, if_neg hsame,
                if_pos (show to_stage ∉ ALLOWED_TRANSITIONS application.stage from hmem)]
              exact hc
  | ensureWebhookDelivery channel event_id now =>
      show contactedLead ((ensure_webhook_delivery s channel event_id now).2) k
      simp only [ensure_webhook_delivery]
      cases hget : s.webhook_deliveries.get? (webhook_key channel event_id) with
      | some r => exact hc
      | none => exact contacted_of_leads_eq rfl hc
  | recordWebhookAttempt channel event_id success error transient max_retries
      backoff_seconds now =>
      exact contacted_of_leads_eq (record_webhook_attempt_leads_eq s channel event_id
        success error transient max_retries backoff_seconds now) hc
  | registerWebhookEvent event_id now =>
      show contactedLead ((register_webhook_event s event_id now).2) k
      unfold register_webhook_event
      cases hget : get_webhook_delivery s "legacy" event_id with
      | some existing =>
          by_cases hst : existing.status = WebhookProcessingStatus.processed
          · simp only [if_pos hst]
            exact hc
          · simp only [if_neg hst]
            exact contacted_of_leads_eq (record_webhook_attempt_leads_eq s "legacy"
              event_id true none false 3 60 now) hc
      | none =>
          exact contacted_of_leads_eq (record_webhook_attempt_leads_eq s "legacy"
            event_id true none false 3 60 now) hc
  | createFirstTenCampaign employer_name city neighborhood_focus
      whatsapp_business_number target_joiners fresher_preferred
      first_contact_sla_minutes now =>
      exact contacted_of_leads_eq rfl hc
  | createManualLead request now =>
      show contactedLead ((create_manual_lead sim s request now).2) k
      unfold create_manual_lead
      by_cases hj : truthyStr request.job_id
      · simp only [hj, if_true]
        exact contacted_of_leads_eq
          ((create_or_get_application_leads_eq _ _ _ _).trans
            (ingest_candidate_leads_eq sim s _ now)) hc
      · simp only [hj, if_false]
        exact contacted_of_leads_eq (ingest_candidate_leads_eq sim s _ now) hc
  | createWebsiteLead request default_first_contact_sla_minutes
      default_whatsapp_number now =>
      show contactedLead (match create_website_lead sim s request
          default_first_contact_sla_minutes default_whatsapp_number now with
        | .ok r => r.2
        | .error _ => s) k
      unfold create_website_lead
      by_cases hcp : truthyStr request.campaign_id
      · simp only [hcp, if_true]
        cases hcamp : get_first_ten_campaign s (request.campaign_id.getD "") with
        | error e => exact hc
        | ok cmp =>
            by_cases hjb : truthyStr request.job_id
            · simp only [hjb, if_true]
              exact contacted_insert h hc _ rfl
                ((create_or_get_application_leads_eq _ _ _ _).trans
                  (ingest_candidate_leads_eq sim s _ now))
                (le_trans (ingest_candidate_nextId_le sim s _ now)
                  (create_or_get_application_nextId_le _ _ _ _))
            · simp only [hjb, if_false]
              exact contacted_insert h hc _ rfl
                (ingest_candidate_leads_eq sim s _ now)
                (ingest_candidate_nextId_le sim s _ now)
      · simp only [hcp, if_false]
        by_cases hjb : truthyStr request.job_id
        · simp only [hjb, if_true]
          exact contacted_insert h hc _ rfl
            ((create_or_get_application_leads_eq _ _ _ _).trans
              (ingest_candidate_leads_eq sim s _ now))
            (le_trans (ingest_candidate_nextId_le sim s _ now)
              (create_or_get_application_nextId_le _ _ _ _))
        · simp only [hjb, if_false]
          exact contacted_insert h hc _ rfl
            (ingest_candidate_leads_eq sim s _ now)
            (ingest_candidate_nextId_le sim s _ now)
  | markWebsiteLeadContacted lead_id contacted_at_utc now =>
      show contactedLead (match mark_website_lead_contacted s lead_id contacted_at_utc now with
        | .ok r => r.2
        | .error _ => s) k
      cases hget : s.website_leads.get? lead_id with
      | none => simp only [mark_website_lead_contacted, hget]; exact hc
      | some lead =>
          simp only [mark_website_lead_contacted, hget]
          by_cases hk : k = lead_id
          · subst hk
            exact ⟨_, AList.get?_set_self _ _ _, by simp⟩
          · obtain ⟨r, hr, hne⟩ := hc
            refine ⟨r, ?_, hne⟩
            show (s.website_leads.set lead_id
                { lead with
                    first_contact_at_utc := some (contacted_at_utc.getD now)
                    sla_breached := decide (contacted_at_utc.getD now
                      > lead.first_contact_due_utc)
                    updated_at_utc := now }).get? k = some r
            rw [AList.get?_set_ne _ _ hk]
            exact hr
  | recordWebsiteEvent request now =>
      show contactedLead (match record_website_event s request now with
        | .ok r => r.2
        | .error _ => s) k
      unfold record_website_event
      by_cases h1 : truthyStr request.lead_id
          ∧ ¬ s.website_leads.contains (request.lead_id.getD "")
      · simp only [if_pos h1]
        exact hc
      · simp only [if_neg h1]
        by_cases h2 : truthyStr request.campaign_id
            ∧ ¬ s.first_ten_campaigns.contains (request.campaign_id.getD "")
        · simp only [if_pos h2]
          exact hc
        · simp only [if_neg h2]
          by_cases h3 : request.event_type = WebsiteEventType.wa_click
              ∧ truthyStr request.lead_id
          · simp only [if_pos h3]
            cases hget : s.website_leads.get? (request.lead_id.getD "") with
            | none => exact contacted_of_leads_eq rfl hc
            | some lead =>
                by_cases hk : k = request.lead_id.getD ""
                · subst hk
                  obtain ⟨r, hr, hne⟩ := hc
                  rw [hget] at hr
                  have hrl : r = lead := (Option.some.inj hr).symm
                  subst hrl
                  refine ⟨_, AList.get?_set_self _ _ _, ?_⟩
                  simpa using hne
                · obtain ⟨r, hr, hne⟩ := hc
                  refine ⟨r, ?_, hne⟩
                  show (s.website_leads.set (request.lead_id.getD "")
                      { lead with
                          wa_click_count := lead.wa_click_count + 1
                          updated_at_utc := now }).get? k = some r
                  rw [AList.get?_set_ne _ _ hk]
                  exact hr
          · simp only [if_neg h3]
            exact contacted_of_leads_eq rfl hc
  | logFirstTenEvent campaign_id event_type count now =>
      show contactedLead (match log_first_ten_event s campaign_id event_type count now with
        | .ok r => r.2
        | .error _ => s) k
      cases hget : s.first_ten_campaigns.get? campaign_id with
      | none => simp only [log_first_ten_event, hget]; exact hc
      | some campaign =>
          simp only [log_first_ten_event, hget]
          exact contacted_of_leads_eq rfl hc

theorem inv_run {sim : String → String → ℚ} {s : State} (h : Inv s) (ops : List Op) :
    Inv (run sim ops s) := by
  induction ops generalizing s with
  | nil => exact h
  | cons o t ih => exact ih (inv_step sim o s h)

theorem contacted_run {sim : String → String → ℚ} {s : State} (hinv : Inv s) {k : Id}
    (hc : contactedLead s k) (ops : List Op) : contactedLead (run sim ops s) k := by
  induction ops generalizing s with
  | nil => exact hc
  | cons o t ih => exact ih (inv_step sim o s hinv) (contacted_step o hinv hc)

theorem not_mem_list_of_contacted {s : State} (hinv : Inv s) {k : Id}
    (hc : contactedLead s k) (limit : Nat) (campaign_id : Option Id)
    {mode : WebsiteLeadQueueMode}
    (hmode : mode = WebsiteLeadQueueMode.overdue ∨ mode = WebsiteLeadQueueMode.due_soon)
    (now2 : ℚ) :
    ∀ x ∈ list_website_leads s limit campaign_id mode now2, x.id ≠ k := by
  intro x hx hxk
  obtain ⟨r, hr, hne⟩ := hc
  have hx1 : x.first_contact_at_utc = none ∧ x ∈ AList.values s.website_leads := by
    rcases hmode with hm | hm
    all_goals subst hm
    all_goals simp only [list_website_leads] at hx
    all_goals have hx2 := List.take_subset _ _ hx
    all_goals rw [List.mem_mergeSort] at hx2
    all_goals have hx3 := List.mem_filter.mp hx2
    all_goals refine ⟨(of_decide_eq_true hx3.2).1, ?_⟩
    all_goals by_cases hcamp : truthyStr campaign_id = true
    · rw [if_pos hcamp] at hx3
      exact (List.mem_filter.mp hx3.1).1
    · rw [if_neg hcamp] at hx3
      exact hx3.1
    · rw [if_pos hcamp] at hx3
      exact (List.mem_filter.mp hx3.1).1
    · rw [if_neg hcamp] at hx3
      exact hx3.1
  obtain ⟨p, hp, hpx⟩ := AList.exists_key_of_mem_values hx1.2
  have hkey : p.1 = k := by rw [← hinv.leads_keyed p hp, hpx, hxk]
  have hpair : (p.1, x) ∈ s.website_leads := by
    rw [← hpx, Prod.mk.eta]
    exact hp
  have hgx := AList.get?_of_mem_nodup hinv.leads_nodup hpair
  rw [hkey, hr] at hgx
  have hxr : x = r := Option.some.inj hgx.symm
  rw [← hxr] at hne
  exact hne hx1.1

theorem mark_contacted_excluded {s : State} (hinv : Inv s) (lead_id : Id)
    {lead upd : WebsiteLeadRecord}
    (hget : s.website_leads.get? lead_id = some lead)
    (hid2 : upd.id = lead.id)
    (hfc : upd.first_contact_at_utc ≠ none) :
    ∀ (sim : String → String → ℚ) (ops : List Op) (limit : Nat)
      (campaign_id2 : Option Id) (mode : WebsiteLeadQueueMode) (now2 : ℚ),
      mode = WebsiteLeadQueueMode.overdue ∨ mode = WebsiteLeadQueueMode.due_soon →
      ∀ x ∈ list_website_leads
          (run sim ops { s with website_leads := s.website_leads.set lead_id upd })
          limit campaign_id2 mode now2,
        x.id ≠ lead_id := by
  intro sim ops limit campaign_id2 mode now2 hmode x hx
  have hinv2 : Inv { s with website_leads := s.website_leads.set lead_id upd } :=
    inv_update_lead upd hinv hget hid2 rfl rfl rfl (le_refl _)
  have hc2 : contactedLead { s with website_leads := s.website_leads.set lead_id upd }
      lead_id :=
    ⟨upd, AList.get?_set_self _ _ _, hfc⟩
  exact not_mem_list_of_contacted (inv_run hinv2 ops) (contacted_run hinv2 hc2 ops)
    limit campaign_id2 hmode now2 x hx

/-- C8: `mark_website_lead_contacted` on an existing lead succeeds and returns
the lead updated so that `first_contact_at_utc` is the caller-supplied time (or
`now` when none was supplied) and `sla_breached` holds exactly when that
contact time is later than the lead's `first_contact_due_utc`; and after any
further sequence of store operations the contacted lead never appears in
`list_website_leads` under the `overdue` or `due_soon` queue modes. -/
theorem C8_lead_contacted {sim : String → String → ℚ} {s : State}
    (h : Reachable sim s) (lead_id : Id) (contacted_at : Option ℚ) (now : ℚ)
    {lead : WebsiteLeadRecord}
    (hget : s.website_leads.get? lead_id = some lead) :
    ∃ upd : WebsiteLeadRecord,
      mark_website_lead_contacted s lead_id contacted_at now
        = Except.ok (upd, { s with website_leads := s.website_leads.set lead_id upd })
      ∧ upd.first_contact_at_utc = some (contacted_at.getD now)
      ∧ (upd.sla_breached = true ↔ contacted_at.getD now > lead.first_contact_due_utc)
      ∧ ∀ (ops : List Op) (limit : Nat) (campaign_id2 : Option Id)
          (mode : WebsiteLeadQueueMode) (now2 : ℚ),
          mode = WebsiteLeadQueueMode.overdue ∨ mode = WebsiteLeadQueueMode.due_soon →
          ∀ x ∈ list_website_leads
              (run sim ops { s with website_leads := s.website_leads.set lead_id upd })
              limit campaign_id2 mode now2,
            x.id ≠ lead_id := by
  have hinv := inv_reachable h
  refine ⟨{ lead with
      first_contact_at_utc := some (contacted_at.getD now)
      sla_breached := decide (contacted_at.getD now > lead.first_contact_due_utc)
      updated_at_utc := now }, ?_, rfl, by simp, ?_⟩
  · simp only [mark_website_lead_contacted, hget]
  · intro ops limit campaign_id2 mode now2 hmode x hx
    exact mark_contacted_excluded hinv lead_id hget (by rfl) (by simp)
      sim ops limit campaign_id2 mode now2 hmode x hx

theorem C8_witness :
    ∃ upd : WebsiteLeadRecord,
      mark_website_lead_contacted stateC8 (mkId 1) none 5
        = Except.ok (upd,
            { stateC8 with website_leads := stateC8.website_leads.set (mkId 1) upd })
      ∧ upd.first_contact_at_utc = some ((none : Option ℚ).getD 5)
      ∧ (upd.sla_breached = true
          ↔ (none : Option ℚ).getD 5 > leadC8.first_contact_due_utc)
      ∧ ∀ (ops : List Op) (limit : Nat) (campaign_id2 : Option Id)
          (mode : WebsiteLeadQueueMode) (now2 : ℚ),
          mode = WebsiteLeadQueueMode.overdue ∨ mode = WebsiteLeadQueueMode.due_soon →
          ∀ x ∈ list_website_leads
              (run (fun _ _ => 0) ops
                { stateC8 with
                    website_leads := stateC8.website_leads.set (mkId 1) upd })
              limit campaign_id2 mode now2,
            x.id ≠ mkId 1 :=
  C8_lead_contacted (Reachable.step opC8 Reachable.init) (mkId 1) none 5 rfl

end HiringAgent
